import Mathlib

/-!
Verification development for the EcoChoice prediction/caching/retry pipeline.

The definitions below are a shallow embedding of the TypeScript services
src/services/CacheService.ts, src/services/MLService.ts and
src/services/ProductAnalyzer.ts:

* JS numbers are modelled as rationals (all the arithmetic the pipeline
  performs on scores, prices, weights and wattages is exact on the small
  decimal constants involved), timestamps as integers (epoch milliseconds).
* JS strings are modelled as Lean strings (lists of characters); the few
  string operations the code uses (toLowerCase, includes, indexOf, slice,
  split, trim and the two number-with-unit regexes) are implemented
  character by character below, mirroring ECMAScript semantics on the ASCII
  texts the services process.
* A JS Map is modelled as an association list in insertion order, which is
  exactly the iteration order of a JS Map; Map.set overwrites in place,
  Map.delete removes the keyed entry.
* chrome.storage.local writes are modelled as a growing trace of whole-object
  snapshots (the code always writes whole objects under fixed keys).
* Asynchronous effects are sequentialized: the services run on a single
  cooperative thread and every operation is modelled as a pure state
  transformer.  All Date.now() calls inside one operation are modelled by a
  single instant passed as a parameter.
* The TensorFlow model behind makePrediction, and the timeout race around it,
  are abstracted by an oracle giving each attempt's outcome (a score, or a
  failure message - a timeout counts as the failure "Prediction timeout");
  likewise a training run's outcome is an oracle value.
-/

namespace EcoChoice

/-! ### Character primitives (ASCII fragments of ECMAScript semantics) -/

/-- Decimal digit test, the regex class backslash-d restricted to ASCII. -/
def isDig (c : Char) : Bool := decide (48 ≤ c.toNat ∧ c.toNat ≤ 57)

/-- Whitespace test, the regex class backslash-s restricted to ASCII. -/
def isJsSpace (c : Char) : Bool :=
  decide (c.toNat = 32 ∨ c.toNat = 9 ∨ c.toNat = 10 ∨ c.toNat = 13 ∨
    c.toNat = 11 ∨ c.toNat = 12)

/-- ASCII lower-casing of one character, as String.prototype.toLowerCase acts
on the ASCII range. -/
def lowerChar (c : Char) : Char :=
  if 65 ≤ c.toNat ∧ c.toNat ≤ 90 then Char.ofNat (c.toNat + 32) else c

/-- String.prototype.toLowerCase on ASCII text. -/
def toLowerStr (s : String) : String := ⟨s.data.map lowerChar⟩

/-- Exact list-of-characters starts-with test. -/
def startsWithChars : List Char → List Char → Bool
  | _, [] => true
  | [], _ :: _ => false
  | c :: cs, d :: ds => c == d && startsWithChars cs ds

/-- Case-insensitive starts-with test; the pattern is given in lower case. -/
def startsWithCI : List Char → List Char → Bool
  | _, [] => true
  | [], _ :: _ => false
  | c :: cs, d :: ds => lowerChar c == d && startsWithCI cs ds

/-- String.prototype.includes on character lists. -/
def includesChars : List Char → List Char → Bool
  | [], needle => startsWithChars [] needle
  | c :: t, needle => startsWithChars (c :: t) needle || includesChars t needle

/-- String.prototype.includes. -/
def jsIncludes (s sub : String) : Bool := includesChars s.data sub.data

/-- String.prototype.indexOf: position of the first occurrence. -/
def indexOfChars : List Char → List Char → Option ℕ
  | [], needle => if startsWithChars [] needle then some 0 else none
  | c :: t, needle =>
    if startsWithChars (c :: t) needle then some 0
    else (indexOfChars t needle).map (fun n => n + 1)

/-- String.prototype.split on a one-or-more-delimiters regex class: the
pieces between maximal delimiter runs, including empty pieces at either end
(ECMAScript split semantics). -/
def splitDelim (isDelim : Char → Bool) (l : List Char) : List (List Char) :=
  (l.foldr
    (fun c acc =>
      if isDelim c then
        if acc.2 then acc else ([] :: acc.1, true)
      else
        match acc.1 with
        | [] => ([[c]], false)
        | h :: t => ((c :: h) :: t, false))
    ([[]], false)).1

/-- String.prototype.trim (ASCII whitespace). -/
def jsTrim (s : String) : String :=
  ⟨((s.data.dropWhile isJsSpace).reverse.dropWhile isJsSpace).reverse⟩

/-! ### The number-with-unit scanner

ProductAnalyzer matches the regexes
(backslash-d+(?:.backslash-d+)?)backslash-s*(kg|g|lbs?|ounces?) and
(backslash-d+(?:.backslash-d+)?)backslash-s*(w|watts?|kw|kilowatts?)
against product text.  The engine below reproduces ECMAScript regex search
for exactly this shape of pattern: scan start positions left to right; a
match takes a maximal digit run, then greedily an optional fraction (a dot
plus a maximal digit run), then maximal whitespace, then the first matching
unit alternative in the regex's alternation order (greedy optional s).
Maximality of the digit/whitespace runs is without loss of generality here
because no unit alternative starts with a digit, a dot or whitespace, so
backtracking into those runs can never produce a match. -/

/-- Numeric value of a digit run. -/
def natVal (ds : List Char) : ℕ := ds.foldl (fun n c => 10 * n + (c.toNat - 48)) 0

/-- Value of parseFloat on digits.digits (exact, as a rational). -/
def decVal (intPart fracPart : List Char) : ℚ :=
  (natVal intPart : ℚ) + (natVal fracPart : ℚ) / (10 : ℚ) ^ fracPart.length

/-- First unit alternative (given lower-case, in alternation order) matching
case-insensitively at the head of the text; returns the lower-cased captured
unit, i.e. the alternative itself. -/
def matchUnit (units : List String) (l : List Char) : Option String :=
  units.findSome? (fun u => if startsWithCI l u.data then some u else none)

/-- Attempt a number-unit match anchored at the head of the text. -/
def tryNumUnit (units : List String) (l : List Char) : Option (ℚ × String) :=
  let ds := l.takeWhile isDig
  let rest := l.dropWhile isDig
  if ds.isEmpty then none
  else
    let noFrac : Option (ℚ × String) :=
      (matchUnit units (rest.dropWhile isJsSpace)).map (fun u => ((natVal ds : ℚ), u))
    match rest with
    | '.' :: r2 =>
      let fs := r2.takeWhile isDig
      let rest2 := r2.dropWhile isDig
      if fs.isEmpty then noFrac
      else
        match matchUnit units (rest2.dropWhile isJsSpace) with
        | some u => some (decVal ds fs, u)
        | none => noFrac
    | _ => noFrac

/-- First match of the number-unit pattern in the text (regex search). -/
def findNumUnit (units : List String) : List Char → Option (ℚ × String)
  | [] => none
  | c :: t =>
    match tryNumUnit units (c :: t) with
    | some m => some m
    | none => findNumUnit units t

/-! ### Data model -/

/-- ProductFeatures (src/utils/ml.ts): the feature vector the analyzer
derives from a raw product.  The three numeric fields are optional in the
TypeScript interface but are always populated by the analyzer's
extractFeatures, so they are total here. -/
structure ProductFeatures where
  title : String
  description : String
  materials : List String
  certifications : List String
  productType : String
  price : ℚ
  weight : ℚ
  energyConsumption : ℚ
deriving DecidableEq

/-- RawProductData (src/services/ProductAnalyzer.ts).  The optional
specifications, seller and images fields are omitted: no modelled code path
reads them. -/
structure RawProductData where
  title : String
  description : String
  price : ℚ
  url : String
deriving DecidableEq

/-- The cache key of CacheService.generateCacheKey: JSON.stringify of the
fixed-shape object with fields title, type, price.  Stringification of that
fixed shape is injective on the triple, so the key is modelled as the triple
itself. -/
structure CacheKey where
  title : String
  type : String
  price : ℚ
deriving DecidableEq

/-- CachedPrediction (src/services/CacheService.ts). -/
structure CachedPrediction where
  score : ℚ
  confidence : String
  timestamp : ℤ
deriving DecidableEq

/-- The context objects passed to CacheService.logError by the modelled call
sites. -/
inductive LogContext where
  | predictCtx (features : ProductFeatures) (attempt : ℕ)
  | mlPredictCtx (url : String)
  | analyzeCtx (url : String)
  | addTrainingDataCtx (features : ProductFeatures) (score : ℚ)
  | trainModelCtx
deriving DecidableEq

/-- ErrorLog (src/services/CacheService.ts). -/
structure ErrorLogEntry where
  error : String
  timestamp : ℤ
  context : LogContext
deriving DecidableEq

/-- One whole-object chrome.storage.local.set write performed by
CacheService.saveToStorage. -/
structure StorageSnapshot where
  predictionCache : List (CacheKey × CachedPrediction)
  errorLogs : List ErrorLogEntry
deriving DecidableEq

/-- The mutable state of the CacheService singleton, plus the trace of its
storage writes.  The cache Map is an association list in insertion order. -/
structure CacheServiceState where
  cache : List (CacheKey × CachedPrediction)
  errorLogs : List ErrorLogEntry
  storage : List StorageSnapshot
deriving DecidableEq

def MAX_CACHE_SIZE : ℕ := 1000
def CACHE_EXPIRY : ℤ := 24 * 60 * 60 * 1000
def MAX_ERROR_LOGS : ℕ := 100

/-! ### JS Map operations on the association-list model -/

/-- Map.prototype.get. -/
def mapGet (m : List (CacheKey × CachedPrediction)) (k : CacheKey) :
    Option CachedPrediction :=
  (m.find? (fun p => p.1 == k)).map Prod.snd

/-- Map.prototype.set: overwrite in place if the key is present, else append. -/
def mapSet (m : List (CacheKey × CachedPrediction)) (k : CacheKey)
    (v : CachedPrediction) : List (CacheKey × CachedPrediction) :=
  if m.any (fun p => p.1 == k) then
    m.map (fun p => if p.1 == k then (k, v) else p)
  else m ++ [(k, v)]

/-- Map.prototype.delete by key. -/
def mapDelete (m : List (CacheKey × CachedPrediction)) (k : CacheKey) :
    List (CacheKey × CachedPrediction) :=
  m.filter (fun p => !(p.1 == k))

/-- The entry selected for eviction by cachePrediction:
Array.from(entries).sort((a, b) => a.timestamp - b.timestamp)[0], i.e. the
first entry in insertion order among those with the smallest timestamp
(Array.prototype.sort is stable). -/
def oldestEntry (m : List (CacheKey × CachedPrediction)) :
    Option (CacheKey × CachedPrediction) :=
  (m.mergeSort (fun a b => a.2.timestamp ≤ b.2.timestamp)).head?

/-! ### CacheService operations -/

/-- CacheService.generateCacheKey: the key depends only on title, productType
and price. -/
def generateCacheKey (features : ProductFeatures) : CacheKey :=
  ⟨features.title, features.productType, features.price⟩

/-- CacheService.saveToStorage: one whole-cache, whole-log snapshot write. -/
def saveToStorage (st : CacheServiceState) : CacheServiceState :=
  { st with storage := st.storage ++ [⟨st.cache, st.errorLogs⟩] }

/-- CacheService.getCachedPrediction at instant now. -/
def getCachedPrediction (now : ℤ) (st : CacheServiceState)
    (features : ProductFeatures) : Option CachedPrediction :=
  match mapGet st.cache (generateCacheKey features) with
  | some cached => if now - cached.timestamp ≤ CACHE_EXPIRY then some cached else none
  | none => none

/-- CacheService.cachePrediction: evict the oldest-timestamp entry when the
cache is full, then set, then persist.  The none arm of the match is
unreachable: a cache of size at least MAX_CACHE_SIZE is nonempty. -/
def cachePrediction (st : CacheServiceState) (features : ProductFeatures)
    (prediction : CachedPrediction) : CacheServiceState :=
  let key := generateCacheKey features
  let cache1 :=
    if MAX_CACHE_SIZE ≤ st.cache.length then
      match oldestEntry st.cache with
      | some oldest => mapDelete st.cache oldest.1
      | none => st.cache
    else st.cache
  saveToStorage { st with cache := mapSet cache1 key prediction }

/-- CacheService.cleanupExpiredEntries at instant now: drop cache entries
older than 24 hours and error logs older than 7 days, then persist.
Deleting the collected expired keys of a JS Map (whose keys are unique)
equals filtering by the keep predicate. -/
def cleanupExpiredEntries (now : ℤ) (st : CacheServiceState) : CacheServiceState :=
  saveToStorage
    { st with
      cache := st.cache.filter
        (fun p => !(decide (24 * 60 * 60 * 1000 < now - p.2.timestamp)))
      errorLogs := st.errorLogs.filter
        (fun log => decide (now - log.timestamp ≤ 7 * 24 * 60 * 60 * 1000)) }

/-- CacheService.logError at instant now: unshift (newest first), cap at
MAX_ERROR_LOGS, persist. -/
def logError (now : ℤ) (st : CacheServiceState) (message : String)
    (context : LogContext) : CacheServiceState :=
  let logs := ErrorLogEntry.mk message now context :: st.errorLogs
  let logs2 := if MAX_ERROR_LOGS < logs.length then logs.take MAX_ERROR_LOGS else logs
  saveToStorage { st with errorLogs := logs2 }

/-! ### Feature extraction (ProductAnalyzer) -/

/-- The ordered type table of ProductAnalyzer.detectProductType (JS object
entries iterate in insertion order). -/
def typePatterns : List (String × List String) :=
  [("electronics", ["laptop", "phone", "computer", "device", "gadget"]),
   ("clothing", ["shirt", "pants", "dress", "jacket", "shoes"]),
   ("furniture", ["chair", "table", "desk", "sofa", "cabinet"]),
   ("appliances", ["refrigerator", "washer", "dryer", "dishwasher"]),
   ("food", ["organic", "snack", "beverage", "food", "drink"])]

/-- ProductAnalyzer.detectProductType: first table entry any of whose
keywords occurs in the lower-cased title-plus-description. -/
def detectProductType (data : RawProductData) : String :=
  let text := toLowerStr (data.title ++ " " ++ data.description)
  match typePatterns.find? (fun tp => tp.2.any (fun pat => jsIncludes text pat)) with
  | some tp => tp.1
  | none => "other"

def materialPatterns : List String :=
  ["made from", "made of", "material:", "materials:",
   "contains", "using", "constructed with", "recycled"]

def commonMaterials : List String :=
  ["recycled", "sustainable", "organic", "biodegradable",
   "plastic", "metal", "wood", "glass", "paper", "cotton"]

/-- JS Set.prototype.add on the insertion-ordered list model of a Set. -/
def setAdd (l : List String) (x : String) : List String :=
  if x ∈ l then l else l ++ [x]

/-- The delimiter class of the split regexes in extractMaterials and
extractCertifications (comma or whitespace, one or more). -/
def isWordDelim (c : Char) : Bool := c == ',' || isJsSpace c

/-- ProductAnalyzer.extractMaterials: for each trigger pattern found in the
text, take the window text.slice(index + pattern.length, index + 100), split
it on commas/whitespace, and add the first three tokens longer than two
characters; then add every directly mentioned common material. -/
def extractMaterials (data : RawProductData) : List String :=
  let text := toLowerStr (data.title ++ " " ++ data.description)
  let fromPatterns := materialPatterns.foldl
    (fun acc pat =>
      match indexOfChars text.data pat.data with
      | none => acc
      | some idx =>
        let segment := (text.data.drop (idx + pat.length)).take (100 - pat.length)
        let words := splitDelim isWordDelim segment
        (words.take 3).foldl
          (fun acc2 w => if 2 < w.length then setAdd acc2 (jsTrim ⟨w⟩) else acc2)
          acc)
    []
  commonMaterials.foldl
    (fun acc m => if jsIncludes text m then setAdd acc m else acc) fromPatterns

def certPatterns : List String :=
  ["certified", "certification:", "compliant with", "approved by", "meets", "standards"]

def commonWords : List String :=
  ["and", "the", "with", "by", "for", "in", "on", "at", "to"]

/-- The word loop of ProductAnalyzer.extractCertifications: every non-common
word is added, joined with the following word when that also is not common;
the index advances by one either way. -/
def addCertWords (acc : List String) : List (List Char) → List String
  | [] => acc
  | w :: rest =>
    if (⟨w⟩ : String) ∈ commonWords then addCertWords acc rest
    else
      let cert : String :=
        match rest with
        | w2 :: _ => if (⟨w2⟩ : String) ∈ commonWords then ⟨w⟩ else ⟨w ++ (' ' :: w2)⟩
        | [] => ⟨w⟩
      addCertWords (setAdd acc (jsTrim cert)) rest

/-- ProductAnalyzer.extractCertifications: for each certification trigger
found, take a window of 30 characters on each side of the trigger and
collect candidate names from it. -/
def extractCertifications (data : RawProductData) : List String :=
  let text := toLowerStr (data.title ++ " " ++ data.description)
  certPatterns.foldl
    (fun acc pat =>
      match indexOfChars text.data pat.data with
      | none => acc
      | some idx =>
        let s := idx - 30
        let e := min text.length (idx + pat.length + 30)
        let segment := (text.data.drop s).take (e - s)
        addCertWords acc (splitDelim isWordDelim segment))
    []

/-- The unit alternation kg|g|lbs?|ounces? in ECMAScript order (the optional
s is greedy). -/
def weightUnits : List String := ["kg", "g", "lbs", "lb", "ounces", "ounce"]

/-- The unit alternation w|watts?|kw|kilowatts? in ECMAScript order. -/
def energyUnits : List String := ["w", "watts", "watt", "kw", "kilowatts", "kilowatt"]

/-- The unit switch of ProductAnalyzer.extractWeight on the lower-cased
captured unit: grams divided by 1000, pounds times 0.45359237, ounces times
0.0283495, and the default case (kg) unchanged. -/
def weightToKg (vu : ℚ × String) : ℚ :=
  if vu.2 = "g" then vu.1 / 1000
  else if vu.2 = "lb" ∨ vu.2 = "lbs" then vu.1 * (0.45359237 : ℚ)
  else if vu.2 = "ounce" ∨ vu.2 = "ounces" then vu.1 * (0.0283495 : ℚ)
  else vu.1

/-- ProductAnalyzer.extractWeight: first number-unit match in the raw
title-plus-description (case-insensitive regex), converted to kilograms by
the unit switch; 0 when there is no match. -/
def extractWeight (data : RawProductData) : ℚ :=
  let text := data.title ++ " " ++ data.description
  match findNumUnit weightUnits text.data with
  | some vu => weightToKg vu
  | none => 0

/-- The conversion of ProductAnalyzer.estimateEnergyConsumption: times 1000
exactly when the lower-cased captured unit starts with kw. -/
def energyToW (vu : ℚ × String) : ℚ :=
  if startsWithChars vu.2.data ['k', 'w'] then vu.1 * 1000 else vu.1

/-- ProductAnalyzer.estimateEnergyConsumption: first number-unit match in the
lower-cased text, converted to watts; falling back to 45 watts for Energy
Star products and otherwise 0. -/
def estimateEnergyConsumption (data : RawProductData) : ℚ :=
  let text := toLowerStr (data.title ++ " " ++ data.description)
  match findNumUnit energyUnits text.data with
  | some vu => energyToW vu
  | none => if jsIncludes text "energy star" then 45 else 0

/-- ProductAnalyzer.extractFeatures. -/
def extractFeatures (data : RawProductData) : ProductFeatures :=
  ⟨data.title, data.description, extractMaterials data, extractCertifications data,
   detectProductType data, data.price, extractWeight data,
   estimateEnergyConsumption data⟩

/-! ### Heuristic scoring and analysis generation (ProductAnalyzer) -/

/-- ProductAnalyzer.calculateHeuristicScore: base 0.5, plus 0.1 for each of
four keyword families, clamped to the unit interval. -/
def calculateHeuristicScore (features : ProductFeatures) : ℚ :=
  let score : ℚ := 0.5
  let score := if features.materials.any (fun m => jsIncludes m "recycl")
    then score + 0.1 else score
  let score := if features.materials.any (fun m => jsIncludes m "sustain")
    then score + 0.1 else score
  let score := if features.certifications.any (fun c => jsIncludes c "energy")
    then score + 0.1 else score
  let score := if features.certifications.any (fun c => jsIncludes c "eco")
    then score + 0.1 else score
  min (max score 0) 1

/-- ProductMetrics (src/services/ProductAnalyzer.ts). -/
structure ProductMetrics where
  carbonFootprint : ℚ
  recycledMaterials : ℚ
  sustainablePackaging : ℚ
  manufacturingImpact : ℚ
  energyEfficiency : ℚ
  repairability : ℚ
deriving DecidableEq

/-- One alternative product suggestion. -/
structure Alternative where
  title : String
  url : String
  score : ℚ
  priceRange : ℚ × ℚ
deriving DecidableEq

/-- One certification entry of a ProductAnalysis. -/
structure CertificationInfo where
  name : String
  verified : Bool
  url : Option String
deriving DecidableEq

/-- ProductAnalysis (src/services/ProductAnalyzer.ts). -/
structure ProductAnalysis where
  overallScore : ℚ
  metrics : ProductMetrics
  confidence : ℚ
  alternatives : List Alternative
  certifications : List CertificationInfo
  recommendations : List String
  timestamp : ℤ
deriving DecidableEq

/-- ProductAnalyzer.calculateCarbonFootprint. -/
def calculateCarbonFootprint (features : ProductFeatures) : ℚ :=
  let baseFootprint : ℚ :=
    if features.productType = "electronics" then 100
    else if features.productType = "clothing" then 10
    else if features.productType = "furniture" then 50
    else if features.productType = "appliances" then 200
    else if features.productType = "food" then 5
    else if features.productType = "other" then 20
    else 20
  baseFootprint + features.weight * 10 + features.energyConsumption * 0.1

/-- ProductAnalyzer.calculateRecycledMaterials. -/
def calculateRecycledMaterials (features : ProductFeatures) : ℚ :=
  let text := toLowerStr (String.intercalate " " features.materials)
  (["recycled", "reclaimed", "upcycled", "repurposed"] : List String).foldl
    (fun score kw => score + (if jsIncludes text kw then 0.25 else 0)) 0

/-- ProductAnalyzer.calculateSustainablePackaging. -/
def calculateSustainablePackaging (features : ProductFeatures) : ℚ :=
  let text := toLowerStr (features.title ++ " " ++ features.description)
  (["biodegradable", "compostable", "recyclable", "minimal"] : List String).foldl
    (fun score kw => score + (if jsIncludes text kw then 0.25 else 0)) 0

/-- ProductAnalyzer.calculateManufacturingImpact. -/
def calculateManufacturingImpact (features : ProductFeatures) : ℚ :=
  let score := features.materials.foldl
    (fun sc material =>
      let ml := toLowerStr material
      let sc := if (["bamboo", "hemp", "organic", "recycled"] : List String).any
          (fun m => jsIncludes ml m) then sc + 0.1 else sc
      if (["plastic", "synthetic", "pvc"] : List String).any
          (fun m => jsIncludes ml m) then sc - 0.1 else sc)
    (0.5 : ℚ)
  max 0 (min 1 score)

/-- ProductAnalyzer.calculateEnergyEfficiency. -/
def calculateEnergyEfficiency (features : ProductFeatures) : ℚ :=
  if features.energyConsumption = 0 then 1
  else
    let typicalConsumption : ℚ :=
      if features.productType = "electronics" then 100
      else if features.productType = "appliances" then 1000
      else if features.productType = "other" then 50
      else 100
    let ratio := features.energyConsumption / typicalConsumption
    max 0 (min 1 (1 - (ratio - 0.5)))

/-- ProductAnalyzer.calculateRepairability. -/
def calculateRepairability (features : ProductFeatures) : ℚ :=
  let text := toLowerStr (features.title ++ " " ++ features.description)
  (["modular", "replaceable", "serviceable", "repairable"] : List String).foldl
    (fun score kw => score + (if jsIncludes text kw then 0.25 else 0)) 0

/-- ProductAnalyzer.calculateDetailedMetrics (the score argument is unused in
the source as well). -/
def calculateDetailedMetrics (features : ProductFeatures) (score : ℚ) :
    ProductMetrics :=
  let _ := score
  ⟨calculateCarbonFootprint features, calculateRecycledMaterials features,
   calculateSustainablePackaging features, calculateManufacturingImpact features,
   calculateEnergyEfficiency features, calculateRepairability features⟩

/-- ProductAnalyzer.findAlternatives (static mock data in the source). -/
def findAlternatives (data : RawProductData) (productType : String) :
    List Alternative :=
  [⟨"Eco-friendly " ++ productType, "https://example.com/eco-" ++ productType,
    0.9, (data.price * 0.8, data.price * 1.2)⟩,
   ⟨"Sustainable " ++ productType, "https://example.com/sustainable-" ++ productType,
    0.85, (data.price * 0.9, data.price * 1.1)⟩]

/-- ProductAnalyzer.generateRecommendations. -/
def generateRecommendations (metrics : ProductMetrics) (productType : String) :
    List String :=
  let _ := productType
  ["Look for more energy-efficient alternatives",
   "Look for products with recycled materials"]
  ++ (if 50 < metrics.carbonFootprint then
        ["Consider local alternatives to reduce transportation emissions"] else [])
  ++ (if metrics.repairability < 0.5 then
        ["Consider products with better repairability scores"] else [])

def validCertifications : List String :=
  ["energy star", "fair trade", "organic", "fsc", "rainforest alliance",
   "ecolabel", "green seal"]

/-- ProductAnalyzer.verifyCertification. -/
def verifyCertification (certification : String) : Bool :=
  validCertifications.any (fun valid =>
    jsIncludes (toLowerStr certification) (toLowerStr valid)
    || jsIncludes (toLowerStr valid) (toLowerStr certification))

/-- ProductAnalyzer.getCertificationUrl (a stub returning undefined in the
source). -/
def getCertificationUrl (certification : String) : Option String :=
  let _ := certification
  none

/-- ProductAnalyzer.generateAnalysis at instant now. -/
def generateAnalysis (now : ℤ) (rawData : RawProductData)
    (features : ProductFeatures) (score confidence : ℚ) : ProductAnalysis :=
  { overallScore := score
    metrics := calculateDetailedMetrics features score
    confidence := confidence
    alternatives := findAlternatives rawData features.productType
    certifications := features.certifications.map
      (fun cert => ⟨cert, verifyCertification cert, getCertificationUrl cert⟩)
    recommendations :=
      generateRecommendations (calculateDetailedMetrics features score)
        features.productType
    timestamp := now }

/-- ProductAnalyzer.isMinimalProductData. -/
def isMinimalProductData (data : RawProductData) : Bool :=
  let hasDetailedInfo :=
    decide (0 < extractWeight data) || decide (0 < estimateEnergyConsumption data)
    || decide (extractMaterials data ≠ []) || decide (extractCertifications data ≠ [])
  decide (data.description.length < 50) || !hasDetailedInfo

/-! ### MLService -/

def MAX_RETRIES : ℕ := 3

/-- One labelled training sample. -/
structure TrainingSample where
  features : ProductFeatures
  score : ℚ
deriving DecidableEq

/-- The combined state of the MLService and MLMetricsService singletons on
top of the shared CacheService state.  hasModel abstracts the presence of
the TensorFlow model handle; trainingHistory is the persisted
trainingHistory array; mlTrainingDataStored and lastTraining model the
whole-object storage writes of addTrainingData; totalPredictions is the only
MLMetricsService.updateMetrics effect on the modelled call path (the call
passes no ground-truth score, so the accuracy branch is skipped). -/
structure SysState where
  cs : CacheServiceState
  hasModel : Bool
  isTraining : Bool
  trainingData : List TrainingSample
  trainingHistory : List (ℤ × ℚ × ℚ)
  mlTrainingDataStored : List TrainingSample
  lastTraining : Option ℤ
  totalPredictions : ℕ
deriving DecidableEq

/-- The state of a freshly initialized service stack: empty cache and logs,
a model present, not training, no samples. -/
def initSys : SysState := ⟨⟨[], [], []⟩, true, false, [], [], [], none, 0⟩

/-- MLService.trainModel with the fit outcome supplied by the oracle fit: a
no-op when the model is absent, a training run is in progress, or there are
fewer than 10 samples; otherwise the training flag is set and cleared again
in the finally block (so it is false in every resulting state), a history
record is appended on success, and a failure is logged and rethrown. -/
def trainModel (fit : Except String (ℚ × ℚ)) (now : ℤ) (st : SysState) :
    SysState × Except String Unit :=
  if st.hasModel = false ∨ st.isTraining = true ∨ st.trainingData.length < 10 then
    (st, Except.ok ())
  else
    match fit with
    | Except.ok al =>
      ({ st with trainingHistory := st.trainingHistory ++ [(now, al.1, al.2)] },
        Except.ok ())
    | Except.error e =>
      ({ st with cs := logError now st.cs e LogContext.trainModelCtx }, Except.error e)

/-- MLService.addTrainingData: append, trim to the most recent 1000, persist
the training set and the lastTraining timestamp, and call trainModel when
the trimmed length is a multiple of 10 (a failure of the awaited trainModel
is caught and logged).  The returned flag records whether trainModel was
called. -/
def addTrainingData (fit : Except String (ℚ × ℚ)) (now : ℤ) (st : SysState)
    (features : ProductFeatures) (score : ℚ) : SysState × Bool :=
  let td := st.trainingData ++ [⟨features, score⟩]
  let td2 := if 1000 < td.length then td.drop (td.length - 1000) else td
  let st1 := { st with trainingData := td2, mlTrainingDataStored := td2,
                       lastTraining := some now }
  if td2.length % 10 = 0 then
    match trainModel fit now st1 with
    | (st2, Except.ok _) => (st2, true)
    | (st2, Except.error e) =>
      let cs2 := logError now st2.cs e (LogContext.addTrainingDataCtx features score)
      ({ st2 with cs := cs2 }, true)
  else (st1, false)

/-- Sequential addTrainingData calls. -/
def addMany (fit : Except String (ℚ × ℚ)) (now : ℤ) :
    SysState → List TrainingSample → SysState
  | st, [] => st
  | st, s :: rest => addMany fit now (addTrainingData fit now st s.features s.score).1 rest

/-- The observable outcome of one MLService.predict call: the returned score
or propagated failure, the number of makePrediction invocations, the list of
backoff waits (milliseconds) performed between attempts, and the resulting
CacheService state. -/
structure PredictOutcome where
  result : Except String ℚ
  inferCalls : ℕ
  waits : List ℕ
  state : CacheServiceState

/-- The retry loop of MLService.predict.  The oracle infer gives the outcome
of the makePrediction/timeout race on each attempt (indexed from 1).  The
fuel argument counts the remaining loop iterations; the loop is entered with
fuel MAX_RETRIES and attempt 1, so the fuel-exhausted arm (the unreachable
trailing throw of the source) is never taken on that entry. -/
def predictLoop (infer : ℕ → Except String ℚ) (features : ProductFeatures)
    (now : ℤ) : ℕ → ℕ → ℕ → List ℕ → CacheServiceState → PredictOutcome
  | _, 0, calls, waits, st =>
    ⟨Except.error "Failed to make prediction after retries", calls, waits, st⟩
  | attempt, fuel + 1, calls, waits, st =>
    match infer attempt with
    | Except.ok score =>
      ⟨Except.ok score, calls + 1, waits,
        cachePrediction st features ⟨score, "high", now⟩⟩
    | Except.error e =>
      if attempt = MAX_RETRIES then
        ⟨Except.error e, calls + 1, waits,
          logError now st e (LogContext.predictCtx features attempt)⟩
      else
        predictLoop infer features now (attempt + 1) fuel (calls + 1)
          (waits ++ [2 ^ attempt * 100]) st

/-- MLService.predict at instant now: return a fresh cache hit immediately,
otherwise run the retry loop. -/
def predict (infer : ℕ → Except String ℚ) (features : ProductFeatures)
    (now : ℤ) (st : CacheServiceState) : PredictOutcome :=
  match getCachedPrediction now st features with
  | some cached => ⟨Except.ok cached.score, 0, [], st⟩
  | none => predictLoop infer features now 1 MAX_RETRIES 0 [] st

/-! ### ProductAnalyzer.analyzeProduct -/

def ANALYSIS_EXPIRY : ℤ := 24 * 60 * 60 * 1000

/-- What analyzeProduct returns on success: either a generated analysis, or
- on an analysis-cache hit - the raw CachedPrediction object, which the
source force-casts to ProductAnalysis. -/
inductive AnalyzeResult where
  | analysis (a : ProductAnalysis)
  | cachedRaw (c : CachedPrediction)
deriving DecidableEq

/-- ProductAnalyzer.getCachedAnalysis: a cache lookup through
getCachedPrediction followed by a second, strict expiry check. -/
def getCachedAnalysis (now : ℤ) (st : CacheServiceState)
    (data : RawProductData) : Option CachedPrediction :=
  match getCachedPrediction now st (extractFeatures data) with
  | some cached =>
    if now - cached.timestamp < ANALYSIS_EXPIRY then some cached else none
  | none => none

/-- The tail of analyzeProduct shared by the ML-success and heuristic
fallback paths: cap the confidence for minimal product data, generate the
analysis, cache it, and add it to the training set when the confidence
exceeds 0.8. -/
def analyzeFinish (fit : Except String (ℚ × ℚ)) (now : ℤ) (st : SysState)
    (rawData : RawProductData) (features : ProductFeatures)
    (score confidence : ℚ) : Except String AnalyzeResult × SysState :=
  let confidence2 := if isMinimalProductData rawData
    then min confidence (0.7 : ℚ) else confidence
  let analysis := generateAnalysis now rawData features score confidence2
  let cs1 := cachePrediction st.cs features ⟨analysis.overallScore, "high", now⟩
  let st1 := { st with cs := cs1 }
  let st2 := if (0.8 : ℚ) < analysis.confidence then
      (addTrainingData fit now st1 features analysis.overallScore).1
    else st1
  (Except.ok (AnalyzeResult.analysis analysis), st2)

/-- ProductAnalyzer.analyzeProduct at instant now, with the inference and
training oracles: return a cached analysis when fresh; otherwise extract
features and ask MLService.predict; on success record a prediction in the
metrics service and proceed with confidence 1; on failure log the error,
rethrow it when its message is exactly "Analysis failed" (the outer catch
then logs again and propagates), and otherwise fall back to the heuristic
score with confidence 0.6. -/
def analyzeProduct (infer : ℕ → Except String ℚ) (fit : Except String (ℚ × ℚ))
    (now : ℤ) (st : SysState) (rawData : RawProductData) :
    Except String AnalyzeResult × SysState :=
  match getCachedAnalysis now st.cs rawData with
  | some cached => (Except.ok (AnalyzeResult.cachedRaw cached), st)
  | none =>
    let features := extractFeatures rawData
    let po := predict infer features now st.cs
    match po.result with
    | Except.ok mlScore =>
      let st1 := { st with cs := po.state,
                           totalPredictions := st.totalPredictions + 1 }
      analyzeFinish fit now st1 rawData features mlScore 1
    | Except.error e =>
      let csLogged := logError now po.state e (LogContext.mlPredictCtx rawData.url)
      let st1 := { st with cs := csLogged }
      if e = "Analysis failed" then
        let csOuter := logError now st1.cs e (LogContext.analyzeCtx rawData.url)
        (Except.error e, { st1 with cs := csOuter })
      else
        analyzeFinish fit now st1 rawData features
          (calculateHeuristicScore features) (0.6 : ℚ)

/-! ### Invariants and concrete inputs used by witnesses and counterexamples -/

/-- A JS Map never holds two entries with the same key. -/
def uniqueKeys (m : List (CacheKey × CachedPrediction)) : Prop :=
  (m.map Prod.fst).Nodup

/-- A minimal feature vector. -/
def fX : ProductFeatures := ⟨"x", "", [], [], "other", 1, 0, 0⟩

/-- Two feature vectors sharing title, productType and price but differing in
description, materials, certifications, weight and energy. -/
def fA : ProductFeatures := ⟨"x", "A", [], [], "other", 1, 0, 0⟩

def fB : ProductFeatures := ⟨"x", "B", ["wood"], ["iso"], "other", 1, 2, 3⟩

def pred0 : CachedPrediction := ⟨1, "high", 0⟩

def cs0 : CacheServiceState := ⟨[], [], []⟩

/-- A full cache: 1000 entries with pairwise distinct keys and increasing
timestamps. -/
def bigCache : List (CacheKey × CachedPrediction) :=
  (List.range 1000).map
    (fun (i : ℕ) =>
      (CacheKey.mk "t" "other" (i : ℚ), CachedPrediction.mk 1 "high" (i : ℤ)))

def bigState : CacheServiceState := ⟨bigCache, [], []⟩

def stC4 : CacheServiceState := ⟨[(generateCacheKey fX, pred0)], [], []⟩

def sample0 : TrainingSample := ⟨fX, 1⟩

def fit0 : Except String (ℚ × ℚ) := Except.ok (1, 1)

def inferFail : ℕ → Except String ℚ := fun _ => Except.error "boom"

def inferAF : ℕ → Except String ℚ := fun _ => Except.error "Analysis failed"

def inferFlaky : ℕ → Except String ℚ :=
  fun i => if i = 3 then Except.ok 1 else Except.error "boom"

def rawCounter : RawProductData := ⟨"Widget", "", 1, "u"⟩

def rawOz : RawProductData := ⟨"Salsa jar 5 oz", "", 1, "u"⟩

/-- The last n elements of a list, in order: the normal form of the trimming
Array.prototype.slice(-1000) performed by addTrainingData. -/
def takeLast {α : Type} (n : ℕ) (l : List α) : List α := l.drop (l.length - n)

/-- A string with no ASCII digit characters, so that the number-unit scanner
can never start a match inside it. -/
def noDigits (s : String) : Prop := ∀ c ∈ s.data, isDig c = false

/-- A nonempty run of ASCII digit characters: a text matched by the regex
piece backslash-d+. -/
def digitsRun (l : List Char) : Prop := l ≠ [] ∧ ∀ c ∈ l, isDig c = true

/-- A (possibly empty) run of whitespace characters: a text matched by the
regex piece backslash-s*. -/
def spacesRun (l : List Char) : Prop := ∀ c ∈ l, isJsSpace c = true

/-- A text that does not begin with the letter s in either case, so that a
unit alternative's greedy optional s cannot extend the match into it. -/
def noLeadS (l : List Char) : Prop := ∀ c, l.head? = some c → lowerChar c ≠ 's'

/-! ### Helper lemmas about the map and eviction primitives -/

theorem oldestEntry_isSome {m : List (CacheKey × CachedPrediction)}
    (h : m ≠ []) : ∃ b, oldestEntry m = some b := by
  unfold oldestEntry
  cases hm : m.mergeSort (fun a b => a.2.timestamp ≤ b.2.timestamp) with
  | nil =>
    exfalso
    have hp := List.mergeSort_perm m
      (fun a b => decide (a.2.timestamp ≤ b.2.timestamp))
    rw [hm] at hp
    exact h (List.Perm.nil_eq hp).symm
  | cons b t => exact ⟨b, rfl⟩

theorem oldestEntry_mem {m : List (CacheKey × CachedPrediction)}
    {b : CacheKey × CachedPrediction} (h : oldestEntry m = some b) : b ∈ m := by
  unfold oldestEntry at h
  cases hm : m.mergeSort (fun a b => a.2.timestamp ≤ b.2.timestamp) with
  | nil => rw [hm] at h; simp at h
  | cons x t =>
    rw [hm] at h
    rw [List.head?_cons, Option.some.injEq] at h
    subst h
    have hx : x ∈ m.mergeSort (fun a b => a.2.timestamp ≤ b.2.timestamp) := by
      rw [hm]
      exact List.mem_cons_self x t
    exact List.mem_mergeSort.1 hx

theorem oldestEntry_min {m : List (CacheKey × CachedPrediction)}
    {b : CacheKey × CachedPrediction} (h : oldestEntry m = some b) :
    ∀ p ∈ m, b.2.timestamp ≤ p.2.timestamp := by
  intro p hp
  have hsorted := @List.sorted_mergeSort (CacheKey × CachedPrediction)
    (fun a b => decide (a.2.timestamp ≤ b.2.timestamp))
    (fun a b c hab hbc => by
      simp only [decide_eq_true_eq] at hab hbc ⊢
      omega)
    (fun a b => by
      simp only [Bool.or_eq_true, decide_eq_true_eq]
      omega)
    m
  have hpm : p ∈ m.mergeSort (fun a b => a.2.timestamp ≤ b.2.timestamp) :=
    List.mem_mergeSort.2 hp
  unfold oldestEntry at h
  cases hm : m.mergeSort (fun a b => a.2.timestamp ≤ b.2.timestamp) with
  | nil => rw [hm] at h; simp at h
  | cons x t =>
    rw [hm] at h
    rw [List.head?_cons, Option.some.injEq] at h
    subst h
    rw [hm] at hpm hsorted
    rcases List.mem_cons.1 hpm with hpx | hpt
    · subst hpx; omega
    · have := List.rel_of_pairwise_cons hsorted hpt
      simpa using this

theorem mapGet_eq_none_iff (m : List (CacheKey × CachedPrediction)) (k : CacheKey) :
    mapGet m k = none ↔ ∀ p ∈ m, p.1 ≠ k := by
  simp [mapGet, List.find?_eq_none]

theorem find?_map_replace (m : List (CacheKey × CachedPrediction)) (k : CacheKey)
    (v : CachedPrediction) :
    List.find? (fun p => p.1 == k) (m.map (fun p => if p.1 == k then (k, v) else p))
      = if m.any (fun p => p.1 == k) then some (k, v) else none := by
  induction m with
  | nil => simp
  | cons p t ih =>
    by_cases hp : p.1 = k
    · have hbeq : (p.1 == k) = true := beq_iff_eq.2 hp
      simp only [List.map_cons, hbeq, if_pos, List.any_cons, Bool.true_or]
      rw [List.find?_cons_of_pos _ (by simp)]
    · have hbeq : (p.1 == k) = false := beq_eq_false_iff_ne.2 hp
      simp only [List.map_cons, hbeq, Bool.false_eq_true, if_false, List.any_cons,
        Bool.false_or]
      rw [List.find?_cons_of_neg _ (by simp [hbeq])]
      exact ih

theorem mapGet_mapSet_self (m : List (CacheKey × CachedPrediction)) (k : CacheKey)
    (v : CachedPrediction) : mapGet (mapSet m k v) k = some v := by
  unfold mapSet
  by_cases hany : m.any (fun p => p.1 == k)
  · rw [if_pos hany]
    unfold mapGet
    rw [find?_map_replace, if_pos hany]
    rfl
  · rw [if_neg hany]
    unfold mapGet
    rw [List.find?_append]
    have hnone : List.find? (fun p => p.1 == k) m = none := by
      rw [List.find?_eq_none]
      intro p hp
      simp only [List.any_eq_true, not_exists, not_and] at hany
      exact hany p hp
    rw [hnone]
    simp [List.find?]

theorem mapSet_length_le (m : List (CacheKey × CachedPrediction)) (k : CacheKey)
    (v : CachedPrediction) : (mapSet m k v).length ≤ m.length + 1 := by
  unfold mapSet
  split
  · simp
  · simp

theorem mapSet_append_of_not_mem (m : List (CacheKey × CachedPrediction))
    (k : CacheKey) (v : CachedPrediction) (h : ∀ p ∈ m, p.1 ≠ k) :
    mapSet m k v = m ++ [(k, v)] := by
  unfold mapSet
  rw [if_neg]
  simp only [List.any_eq_true, not_exists, not_and]
  intro p hp
  simpa using h p hp

theorem mapDelete_length_lt (m : List (CacheKey × CachedPrediction)) (k : CacheKey)
    (b : CacheKey × CachedPrediction) (hb : b ∈ m) (hbk : b.1 = k) :
    (mapDelete m k).length < m.length := by
  unfold mapDelete
  exact List.length_filter_lt_length_iff_exists.2
    (Exists.intro b (And.intro hb (by simp [hbk])))

theorem mapDelete_length_nodup (m : List (CacheKey × CachedPrediction))
    (k : CacheKey) (b : CacheKey × CachedPrediction)
    (huk : (m.map Prod.fst).Nodup) (hb : b ∈ m) (hbk : b.1 = k) :
    (mapDelete m k).length + 1 = m.length := by
  induction m with
  | nil => cases hb
  | cons p t ih =>
    rw [List.map_cons, List.nodup_cons] at huk
    unfold mapDelete
    rcases List.mem_cons.1 hb with hbp | hbt
    · subst hbp
      have hcond : (!(b.1 == k)) = false := by simp [hbk]
      rw [List.filter_cons, hcond]
      rw [if_neg (by simp)]
      have hall : t.filter (fun q => !(q.1 == k)) = t := by
        rw [List.filter_eq_self]
        intro q hq
        have hq1 : q.1 ≠ k := by
          intro hqk
          apply huk.1
          rw [hbk, ← hqk]
          exact List.mem_map.2 ⟨q, hq, rfl⟩
        simp [hq1]
      rw [hall]
      simp
    · have hpk : p.1 ≠ k := by
        intro hpk
        apply huk.1
        rw [hpk, ← hbk]
        exact List.mem_map.2 ⟨b, hbt, rfl⟩
      have hcond : (!(p.1 == k)) = true := by simp [hpk]
      rw [List.filter_cons, hcond]
      rw [if_pos rfl]
      have ht := ih huk.2 hbt
      unfold mapDelete at ht
      simp only [List.length_cons]
      omega

theorem mem_mapDelete {m : List (CacheKey × CachedPrediction)} {k : CacheKey}
    {p : CacheKey × CachedPrediction} (hp : p ∈ mapDelete m k) : p ∈ m :=
  (List.mem_filter.1 hp).1

/-! ### C3, C4, C5: cache invariants -/

/-- C3: the cache never exceeds MAX_CACHE_SIZE entries across a put; a put on
a full cache first evicts the entry with the smallest timestamp and then
inserts, so inserting a 1001st distinct fingerprint evicts exactly the
globally oldest-timestamp entry and leaves the size at 1000; and every put
ends with a synchronous persist of the full cache. -/
theorem cache_put_eviction_persist :
    (∀ st features pred, st.cache.length ≤ MAX_CACHE_SIZE →
       (cachePrediction st features pred).cache.length ≤ MAX_CACHE_SIZE)
  ∧ (∀ st features pred, uniqueKeys st.cache → st.cache.length = MAX_CACHE_SIZE →
       mapGet st.cache (generateCacheKey features) = none →
       ∃ oldest, oldestEntry st.cache = some oldest ∧ oldest ∈ st.cache
         ∧ (∀ p ∈ st.cache, oldest.2.timestamp ≤ p.2.timestamp)
         ∧ (cachePrediction st features pred).cache
             = mapDelete st.cache oldest.1 ++ [(generateCacheKey features, pred)]
         ∧ (cachePrediction st features pred).cache.length = MAX_CACHE_SIZE)
  ∧ (∀ st features pred,
       (cachePrediction st features pred).storage
         = st.storage ++ [⟨(cachePrediction st features pred).cache, st.errorLogs⟩]) := by
  have hc1full : ∀ (st : CacheServiceState) (b : CacheKey × CachedPrediction),
      MAX_CACHE_SIZE ≤ st.cache.length → oldestEntry st.cache = some b →
      (if MAX_CACHE_SIZE ≤ st.cache.length then
        match oldestEntry st.cache with
        | some oldest => mapDelete st.cache oldest.1
        | none => st.cache
      else st.cache) = mapDelete st.cache b.1 := by
    intro st b hfull hb
    rw [if_pos hfull, hb]
  refine ⟨?_, ?_, ?_⟩
  · intro st f pred hle
    show (mapSet (if MAX_CACHE_SIZE ≤ st.cache.length then
        match oldestEntry st.cache with
        | some oldest => mapDelete st.cache oldest.1
        | none => st.cache
      else st.cache) (generateCacheKey f) pred).length ≤ MAX_CACHE_SIZE
    by_cases hfull : MAX_CACHE_SIZE ≤ st.cache.length
    · have hne : st.cache ≠ [] := by
        intro h
        rw [h] at hfull
        simp [MAX_CACHE_SIZE] at hfull
      obtain ⟨b, hb⟩ := oldestEntry_isSome hne
      rw [hc1full st b hfull hb]
      have h1 : (mapDelete st.cache b.1).length < st.cache.length :=
        mapDelete_length_lt _ _ b (oldestEntry_mem hb) rfl
      have h2 := mapSet_length_le (mapDelete st.cache b.1)
        (generateCacheKey f) pred
      omega
    · rw [if_neg hfull]
      have h2 := mapSet_length_le st.cache (generateCacheKey f) pred
      omega
  · intro st f pred huk hlen hnone
    have hne : st.cache ≠ [] := by
      intro h
      rw [h] at hlen
      simp [MAX_CACHE_SIZE] at hlen
    obtain ⟨b, hb⟩ := oldestEntry_isSome hne
    have hkeys : ∀ p ∈ st.cache, p.1 ≠ generateCacheKey f :=
      (mapGet_eq_none_iff _ _).1 hnone
    have hcache : (cachePrediction st f pred).cache
        = mapDelete st.cache b.1 ++ [(generateCacheKey f, pred)] := by
      show mapSet (if MAX_CACHE_SIZE ≤ st.cache.length then
          match oldestEntry st.cache with
          | some oldest => mapDelete st.cache oldest.1
          | none => st.cache
        else st.cache) (generateCacheKey f) pred = _
      rw [hc1full st b (le_of_eq hlen.symm) hb]
      exact mapSet_append_of_not_mem _ _ _
        (fun p hp => hkeys p (mem_mapDelete hp))
    have hdel := mapDelete_length_nodup st.cache b.1 b huk
      (oldestEntry_mem hb) rfl
    refine ⟨b, hb, oldestEntry_mem hb, oldestEntry_min hb, hcache, ?_⟩
    rw [hcache]
    simp only [List.length_append, List.length_singleton]
    omega
  · intro st f pred
    rfl

set_option maxRecDepth 16000 in
/-- C3 witness: the general statements instantiated on a concrete full cache
of 1000 distinct keys and a 1001st distinct fingerprint. -/
theorem cache_put_eviction_persist_witness :
    bigState.cache.length = MAX_CACHE_SIZE
  ∧ uniqueKeys bigState.cache
  ∧ mapGet bigState.cache (generateCacheKey fX) = none
  ∧ (∃ oldest, oldestEntry bigState.cache = some oldest ∧ oldest ∈ bigState.cache
      ∧ (∀ p ∈ bigState.cache, oldest.2.timestamp ≤ p.2.timestamp)
      ∧ (cachePrediction bigState fX pred0).cache
          = mapDelete bigState.cache oldest.1 ++ [(generateCacheKey fX, pred0)]
      ∧ (cachePrediction bigState fX pred0).cache.length = MAX_CACHE_SIZE)
  ∧ (cachePrediction bigState fX pred0).cache.length ≤ MAX_CACHE_SIZE := by
  have hlen : bigState.cache.length = MAX_CACHE_SIZE := by
    show (List.map _ (List.range 1000)).length = MAX_CACHE_SIZE
    rw [List.length_map, List.length_range]
    rfl
  have huk : uniqueKeys bigState.cache := by
    show ((bigCache.map Prod.fst)).Nodup
    unfold bigCache
    rw [List.map_map]
    apply List.Nodup.map
    · intro i j hij
      simp only [Function.comp] at hij
      have hq : ((i : ℚ)) = (j : ℚ) := congrArg CacheKey.price hij
      exact_mod_cast hq
    · exact List.nodup_range 1000
  have hnone : mapGet bigState.cache (generateCacheKey fX) = none := by
    rw [mapGet_eq_none_iff]
    intro p hp
    have hp2 : p ∈ bigCache := hp
    unfold bigCache at hp2
    rw [List.mem_map] at hp2
    obtain ⟨i, _, hpi⟩ := hp2
    intro hc
    rw [← hpi] at hc
    have hts : "t" = "x" := congrArg CacheKey.title hc
    simp at hts
  exact ⟨hlen, huk, hnone,
    cache_put_eviction_persist.2.1 bigState fX pred0 huk hlen hnone,
    cache_put_eviction_persist.1 bigState fX pred0 (le_of_eq hlen)⟩

/-- C4: a cache entry is unreadable once older than the 24-hour TTL and is
returned while within it; the sweep keeps exactly the unexpired entries; on
a single entry timestamped 25 hours ago, get returns none and the sweep
shrinks the cache by exactly one. -/
theorem cache_ttl_get_and_sweep :
    (∀ now st features cached,
        mapGet st.cache (generateCacheKey features) = some cached →
        (CACHE_EXPIRY < now - cached.timestamp →
          getCachedPrediction now st features = none)
      ∧ (now - cached.timestamp ≤ CACHE_EXPIRY →
          getCachedPrediction now st features = some cached))
  ∧ (∀ now st p, p ∈ (cleanupExpiredEntries now st).cache ↔
        p ∈ st.cache ∧ now - p.2.timestamp ≤ CACHE_EXPIRY)
  ∧ (∀ now st features cached,
        st.cache = [(generateCacheKey features, cached)] →
        now - cached.timestamp = 25 * 60 * 60 * 1000 →
        getCachedPrediction now st features = none
      ∧ (cleanupExpiredEntries now st).cache.length + 1 = st.cache.length) := by
  have hgetspec : ∀ (now : ℤ) (st : CacheServiceState) (f : ProductFeatures) cached,
      mapGet st.cache (generateCacheKey f) = some cached →
      getCachedPrediction now st f
        = if now - cached.timestamp ≤ CACHE_EXPIRY then some cached else none := by
    intro now st f cached hget
    unfold getCachedPrediction
    rw [hget]
  refine ⟨?_, ?_, ?_⟩
  · intro now st f cached hget
    rw [hgetspec now st f cached hget]
    constructor
    · intro hexp
      rw [if_neg (by omega)]
    · intro hok
      rw [if_pos hok]
  · intro now st p
    show p ∈ List.filter _ st.cache ↔ _
    rw [List.mem_filter]
    unfold CACHE_EXPIRY
    constructor
    · rintro ⟨h1, h2⟩
      refine ⟨h1, ?_⟩
      simp only [Bool.not_eq_true', decide_eq_false_iff_not, not_lt] at h2
      omega
    · rintro ⟨h1, h2⟩
      refine ⟨h1, ?_⟩
      simp only [Bool.not_eq_true', decide_eq_false_iff_not, not_lt]
      omega
  · intro now st f cached hcache hts
    have hget : mapGet st.cache (generateCacheKey f) = some cached := by
      unfold mapGet
      rw [hcache]
      rw [List.find?_cons_of_pos _ (by simp)]
      rfl
    constructor
    · rw [hgetspec now st f cached hget]
      rw [if_neg (by unfold CACHE_EXPIRY; omega)]
    · show (List.filter _ st.cache).length + 1 = _
      rw [hcache]
      rw [List.filter_cons]
      have hcond : (!(decide (24 * 60 * 60 * 1000 < now - cached.timestamp))) = false := by
        simp only [Bool.not_eq_false', decide_eq_true_eq]
        omega
      rw [hcond]
      rw [if_neg (by simp)]
      simp

/-- C4 witness: the TTL statements instantiated on a one-entry cache whose
entry is 25 hours old. -/
theorem cache_ttl_get_and_sweep_witness :
    stC4.cache = [(generateCacheKey fX, pred0)]
  ∧ (25 * 60 * 60 * 1000 : ℤ) - pred0.timestamp = 25 * 60 * 60 * 1000
  ∧ getCachedPrediction (25 * 60 * 60 * 1000) stC4 fX = none
  ∧ (cleanupExpiredEntries (25 * 60 * 60 * 1000) stC4).cache.length + 1
      = stC4.cache.length
  ∧ mapGet stC4.cache (generateCacheKey fX) = some pred0
  ∧ getCachedPrediction 0 stC4 fX = some pred0 := by
  have h1 : stC4.cache = [(generateCacheKey fX, pred0)] := rfl
  have hts0 : pred0.timestamp = 0 := rfl
  have h2 : (25 * 60 * 60 * 1000 : ℤ) - pred0.timestamp = 25 * 60 * 60 * 1000 := by
    rw [hts0]
    omega
  have hget : mapGet stC4.cache (generateCacheKey fX) = some pred0 := by
    unfold stC4 mapGet
    simp [List.find?_cons]
  obtain ⟨ha, hb⟩ := cache_ttl_get_and_sweep.2.2 (25 * 60 * 60 * 1000) stC4 fX pred0 h1 h2
  refine ⟨h1, h2, ha, hb, hget, ?_⟩
  exact (cache_ttl_get_and_sweep.1 0 stC4 fX pred0 hget).2
    (by rw [hts0]; unfold CACHE_EXPIRY; omega)

/-- C5: the cache key depends only on title, productType and price, so a put
under one feature vector followed immediately by a get under another vector
agreeing on those three fields returns the entry just written. -/
theorem cache_key_title_type_price :
    ∀ fa fb st pred now,
      fa.title = fb.title → fa.productType = fb.productType → fa.price = fb.price →
      now - pred.timestamp ≤ CACHE_EXPIRY →
      generateCacheKey fa = generateCacheKey fb
      ∧ getCachedPrediction now (cachePrediction st fa pred) fb = some pred := by
  intro fa fb st pred now ht hp hpr httl
  have hk : generateCacheKey fa = generateCacheKey fb := by
    unfold generateCacheKey
    rw [ht, hp, hpr]
  refine ⟨hk, ?_⟩
  unfold getCachedPrediction
  rw [← hk]
  have hself : mapGet (cachePrediction st fa pred).cache (generateCacheKey fa)
      = some pred := mapGet_mapSet_self _ _ _
  rw [hself]
  dsimp only
  rw [if_pos httl]

/-- C5 witness: put under a vector with one description, get under a vector
differing in description, materials, certifications, weight and energy. -/
theorem cache_key_title_type_price_witness :
    fA.title = fB.title ∧ fA.productType = fB.productType ∧ fA.price = fB.price
  ∧ (0 : ℤ) - pred0.timestamp ≤ CACHE_EXPIRY
  ∧ fA ≠ fB
  ∧ getCachedPrediction 0 (cachePrediction cs0 fA pred0) fB = some pred0 := by
  have hts0 : pred0.timestamp = 0 := rfl
  have httl : (0 : ℤ) - pred0.timestamp ≤ CACHE_EXPIRY := by
    rw [hts0]
    unfold CACHE_EXPIRY
    omega
  refine ⟨rfl, rfl, rfl, httl, ?_, ?_⟩
  · intro h
    have hAB : "A" = "B" := congrArg ProductFeatures.description h
    simp at hAB
  · exact (cache_key_title_type_price fA fB cs0 pred0 0 rfl rfl rfl httl).2

/-! ### Helper lemmas about predict, logError and the training set -/

theorem logError_head (now : ℤ) (st : CacheServiceState) (msg : String)
    (ctx : LogContext) :
    (logError now st msg ctx).errorLogs.head? = some ⟨msg, now, ctx⟩ := by
  unfold logError saveToStorage
  dsimp only
  split
  · show ((ErrorLogEntry.mk msg now ctx :: st.errorLogs).take MAX_ERROR_LOGS).head? = _
    rw [show MAX_ERROR_LOGS = 99 + 1 from rfl]
    rw [List.take_succ_cons, List.head?_cons]
  · rw [List.head?_cons]

theorem logError_cache (now : ℤ) (st : CacheServiceState) (msg : String)
    (ctx : LogContext) : (logError now st msg ctx).cache = st.cache := rfl

theorem predictLoop_step_ok (infer : ℕ → Except String ℚ) (f : ProductFeatures)
    (now : ℤ) (attempt fuel calls : ℕ) (waits : List ℕ) (st : CacheServiceState)
    (score : ℚ) (h : infer attempt = Except.ok score) :
    predictLoop infer f now attempt (fuel + 1) calls waits st
      = ⟨Except.ok score, calls + 1, waits,
          cachePrediction st f ⟨score, "high", now⟩⟩ := by
  unfold predictLoop
  rw [h]

theorem predictLoop_step_err_last (infer : ℕ → Except String ℚ)
    (f : ProductFeatures) (now : ℤ) (fuel calls : ℕ) (waits : List ℕ)
    (st : CacheServiceState) (e : String)
    (h : infer MAX_RETRIES = Except.error e) :
    predictLoop infer f now MAX_RETRIES (fuel + 1) calls waits st
      = ⟨Except.error e, calls + 1, waits,
          logError now st e (LogContext.predictCtx f MAX_RETRIES)⟩ := by
  conv_lhs => rw [predictLoop]
  rw [h]
  dsimp only
  rw [if_pos rfl]

theorem predictLoop_step_err (infer : ℕ → Except String ℚ) (f : ProductFeatures)
    (now : ℤ) (attempt fuel calls : ℕ) (waits : List ℕ) (st : CacheServiceState)
    (e : String) (h : infer attempt = Except.error e) (hne : attempt ≠ MAX_RETRIES) :
    predictLoop infer f now attempt (fuel + 1) calls waits st
      = predictLoop infer f now (attempt + 1) fuel (calls + 1)
          (waits ++ [2 ^ attempt * 100]) st := by
  conv_lhs => rw [predictLoop]
  rw [h]
  dsimp only
  rw [if_neg hne]

/-- predict on a cache miss with three failing attempts: three inference
calls, backoff waits of 200 and 400 milliseconds, the third failure logged
and propagated. -/
theorem predict_allFail_spec (infer : ℕ → Except String ℚ) (f : ProductFeatures)
    (now : ℤ) (st : CacheServiceState) (e1 e2 e3 : String)
    (hmiss : getCachedPrediction now st f = none)
    (h1 : infer 1 = Except.error e1) (h2 : infer 2 = Except.error e2)
    (h3 : infer 3 = Except.error e3) :
    predict infer f now st
      = ⟨Except.error e3, 3, [200, 400],
          logError now st e3 (LogContext.predictCtx f 3)⟩ := by
  unfold predict
  rw [hmiss]
  show predictLoop infer f now 1 (2 + 1) 0 [] st = _
  rw [predictLoop_step_err infer f now 1 2 0 [] st e1 h1 (by decide)]
  show predictLoop infer f now 2 (1 + 1) 1 [2 ^ 1 * 100] st = _
  rw [predictLoop_step_err infer f now 2 1 1 [2 ^ 1 * 100] st e2 h2 (by decide)]
  show predictLoop infer f now MAX_RETRIES (0 + 1) 2 [2 ^ 1 * 100, 2 ^ 2 * 100] st = _
  rw [predictLoop_step_err_last infer f now 0 2 [2 ^ 1 * 100, 2 ^ 2 * 100] st e3 h3]
  norm_num [MAX_RETRIES]

/-- predict on a cache miss with two failing attempts then a success: three
inference calls, backoff waits of 200 and 400 milliseconds, and the success
written through to the cache. -/
theorem predict_failTwice_spec (infer : ℕ → Except String ℚ) (f : ProductFeatures)
    (now : ℤ) (st : CacheServiceState) (e1 e2 : String) (v : ℚ)
    (hmiss : getCachedPrediction now st f = none)
    (h1 : infer 1 = Except.error e1) (h2 : infer 2 = Except.error e2)
    (h3 : infer 3 = Except.ok v) :
    predict infer f now st
      = ⟨Except.ok v, 3, [200, 400], cachePrediction st f ⟨v, "high", now⟩⟩ := by
  unfold predict
  rw [hmiss]
  show predictLoop infer f now 1 (2 + 1) 0 [] st = _
  rw [predictLoop_step_err infer f now 1 2 0 [] st e1 h1 (by decide)]
  show predictLoop infer f now 2 (1 + 1) 1 [2 ^ 1 * 100] st = _
  rw [predictLoop_step_err infer f now 2 1 1 [2 ^ 1 * 100] st e2 h2 (by decide)]
  show predictLoop infer f now 3 (0 + 1) 2 [2 ^ 1 * 100, 2 ^ 2 * 100] st = _
  rw [predictLoop_step_ok infer f now 3 0 2 [2 ^ 1 * 100, 2 ^ 2 * 100] st v h3]
  norm_num

/-! ### C1, C2: retry exhaustion and backoff success -/

/-- C1: on a cache miss with an always-failing inference function, predict
invokes the underlying inference exactly MAX_RETRIES = 3 times, adds an
error log entry (newest first), propagates the last underlying failure
unchanged to the caller - it never substitutes any score - and leaves the
cache unchanged. -/
theorem MLService_predict_retry_exhaustion :
    ∀ (infer : ℕ → Except String ℚ) (f : ProductFeatures) (now : ℤ)
      (st : CacheServiceState),
      getCachedPrediction now st f = none →
      (∀ i, ∃ e, infer i = Except.error e) →
      ∃ e, infer MAX_RETRIES = Except.error e
        ∧ (predict infer f now st).result = Except.error e
        ∧ (predict infer f now st).inferCalls = MAX_RETRIES
        ∧ (predict infer f now st).state.errorLogs.head?
            = some ⟨e, now, LogContext.predictCtx f MAX_RETRIES⟩
        ∧ (predict infer f now st).state.cache = st.cache := by
  intro infer f now st hmiss hfail
  obtain ⟨e1, h1⟩ := hfail 1
  obtain ⟨e2, h2⟩ := hfail 2
  obtain ⟨e3, h3⟩ := hfail 3
  have hspec := predict_allFail_spec infer f now st e1 e2 e3 hmiss h1 h2 h3
  have hres : (predict infer f now st).result = Except.error e3 := by
    rw [hspec]
  have hcalls : (predict infer f now st).inferCalls = MAX_RETRIES := by
    unfold MAX_RETRIES
    rw [hspec]
  have hhead : (predict infer f now st).state.errorLogs.head?
      = some ⟨e3, now, LogContext.predictCtx f MAX_RETRIES⟩ := by
    unfold MAX_RETRIES
    rw [hspec]
    exact logError_head now st e3 (LogContext.predictCtx f 3)
  have hcache : (predict infer f now st).state.cache = st.cache := by
    rw [hspec]
    exact logError_cache now st e3 (LogContext.predictCtx f 3)
  exact ⟨e3, h3, hres, hcalls, hhead, hcache⟩

/-- C1 witness: empty cache, inference that always fails with "boom". -/
theorem MLService_predict_retry_exhaustion_witness :
    getCachedPrediction 0 cs0 fX = none
  ∧ ∃ e, inferFail MAX_RETRIES = Except.error e
      ∧ (predict inferFail fX 0 cs0).result = Except.error e
      ∧ (predict inferFail fX 0 cs0).inferCalls = MAX_RETRIES
      ∧ (predict inferFail fX 0 cs0).state.errorLogs.head?
          = some ⟨e, 0, LogContext.predictCtx fX MAX_RETRIES⟩
      ∧ (predict inferFail fX 0 cs0).state.cache = cs0.cache := by
  have hmiss : getCachedPrediction 0 cs0 fX = none := rfl
  exact ⟨hmiss, MLService_predict_retry_exhaustion inferFail fX 0 cs0 hmiss
    (fun _ => ⟨"boom", rfl⟩)⟩

/-- C2: on a cache miss with an inference function failing twice then
succeeding, predict returns the success value, the underlying inference is
invoked exactly three times, the waits between attempts follow the schedule
2 to-the attempt times 100 milliseconds (200 then 400, total 600 before the
third attempt), and the result is cached with confidence high and the
current timestamp. -/
theorem MLService_predict_backoff_success :
    ∀ (infer : ℕ → Except String ℚ) (f : ProductFeatures) (now : ℤ)
      (st : CacheServiceState) (v : ℚ),
      getCachedPrediction now st f = none →
      (∃ e1, infer 1 = Except.error e1) →
      (∃ e2, infer 2 = Except.error e2) →
      infer 3 = Except.ok v →
      (predict infer f now st).result = Except.ok v
    ∧ (predict infer f now st).inferCalls = 3
    ∧ (predict infer f now st).waits = [2 ^ 1 * 100, 2 ^ 2 * 100]
    ∧ (predict infer f now st).waits.sum = 600
    ∧ 600 ≤ (predict infer f now st).waits.sum
    ∧ mapGet (predict infer f now st).state.cache (generateCacheKey f)
        = some ⟨v, "high", now⟩ := by
  intro infer f now st v hmiss he1 he2 h3
  obtain ⟨e1, h1⟩ := he1
  obtain ⟨e2, h2⟩ := he2
  have hspec := predict_failTwice_spec infer f now st e1 e2 v hmiss h1 h2 h3
  have hres : (predict infer f now st).result = Except.ok v := by rw [hspec]
  have hcalls : (predict infer f now st).inferCalls = 3 := by rw [hspec]
  have hwaits : (predict infer f now st).waits = [2 ^ 1 * 100, 2 ^ 2 * 100] := by
    rw [hspec]
    norm_num
  have hsum : (predict infer f now st).waits.sum = 600 := by
    rw [hwaits]
    norm_num
  have hcached : mapGet (predict infer f now st).state.cache (generateCacheKey f)
      = some ⟨v, "high", now⟩ := by
    rw [hspec]
    exact mapGet_mapSet_self _ _ _
  exact ⟨hres, hcalls, hwaits, hsum, le_of_eq hsum.symm, hcached⟩

/-- C2 witness: empty cache, inference failing on attempts 1 and 2 and
returning score 1 on attempt 3. -/
theorem MLService_predict_backoff_success_witness :
    getCachedPrediction 0 cs0 fX = none
  ∧ inferFlaky 1 = Except.error "boom"
  ∧ inferFlaky 3 = Except.ok 1
  ∧ (predict inferFlaky fX 0 cs0).result = Except.ok 1
  ∧ (predict inferFlaky fX 0 cs0).inferCalls = 3
  ∧ (predict inferFlaky fX 0 cs0).waits = [2 ^ 1 * 100, 2 ^ 2 * 100]
  ∧ 600 ≤ (predict inferFlaky fX 0 cs0).waits.sum
  ∧ mapGet (predict inferFlaky fX 0 cs0).state.cache (generateCacheKey fX)
      = some ⟨1, "high", 0⟩ := by
  have hmiss : getCachedPrediction 0 cs0 fX = none := rfl
  have he1 : ∃ e, inferFlaky 1 = Except.error e := ⟨"boom", rfl⟩
  have he2 : ∃ e, inferFlaky 2 = Except.error e := ⟨"boom", rfl⟩
  have h3 : inferFlaky 3 = Except.ok 1 := rfl
  have hall := MLService_predict_backoff_success inferFlaky fX 0 cs0 1 hmiss he1 he2 h3
  exact ⟨hmiss, rfl, h3, hall.1, hall.2.1, hall.2.2.1, hall.2.2.2.2.1,
    hall.2.2.2.2.2⟩

/-! ### Helper lemmas about the training set -/

theorem takeLast_of_le {α : Type} {n : ℕ} {l : List α} (h : l.length ≤ n) :
    takeLast n l = l := by
  unfold takeLast
  rw [Nat.sub_eq_zero_of_le h, List.drop_zero]

theorem length_takeLast {α : Type} (n : ℕ) (l : List α) :
    (takeLast n l).length = min n l.length := by
  unfold takeLast
  rw [List.length_drop]
  omega

theorem takeLast_append_takeLast {α : Type} (n : ℕ) (l s : List α) :
    takeLast n (takeLast n l ++ s) = takeLast n (l ++ s) := by
  unfold takeLast
  rw [List.length_append, List.length_append, List.length_drop]
  rw [List.drop_append_eq_append_drop, List.drop_append_eq_append_drop]
  rw [List.drop_drop]
  have hd : ∀ (a b : ℕ), a = b → l.drop a = l.drop b := fun a b hab => by rw [hab]
  have hs : ∀ (a b : ℕ), a = b → s.drop a = s.drop b := fun a b hab => by rw [hab]
  rw [List.length_drop]
  refine congrArg₂ (· ++ ·) (hd _ _ (by omega)) (hs _ _ (by omega))

theorem trainModel_trainingData (fit : Except String (ℚ × ℚ)) (now : ℤ)
    (st : SysState) : (trainModel fit now st).1.trainingData = st.trainingData := by
  unfold trainModel
  split
  · rfl
  · cases fit <;> rfl

theorem trainModel_isTraining_noop (fit : Except String (ℚ × ℚ)) (now : ℤ)
    (st : SysState) (h : st.isTraining = true) :
    trainModel fit now st = (st, Except.ok ()) := by
  unfold trainModel
  rw [if_pos (Or.inr (Or.inl h))]

/-- The two observable components of one addTrainingData call: the training
set is trimmed to the most recent 1000 after the append, and trainModel is
called exactly when the trimmed length is a multiple of 10. -/
theorem addTrainingData_fst (fit : Except String (ℚ × ℚ)) (now : ℤ)
    (st : SysState) (f : ProductFeatures) (sc : ℚ) :
    ((addTrainingData fit now st f sc).1.trainingData
        = takeLast 1000 (st.trainingData ++ [(⟨f, sc⟩ : TrainingSample)]))
  ∧ ((addTrainingData fit now st f sc).2 = true
        ↔ (takeLast 1000 (st.trainingData ++ [(⟨f, sc⟩ : TrainingSample)])).length % 10 = 0) := by
  have htd : (if 1000 < (st.trainingData ++ [(⟨f, sc⟩ : TrainingSample)]).length then
      (st.trainingData ++ [(⟨f, sc⟩ : TrainingSample)]).drop ((st.trainingData ++ [(⟨f, sc⟩ : TrainingSample)]).length - 1000)
    else st.trainingData ++ [(⟨f, sc⟩ : TrainingSample)]) = takeLast 1000 (st.trainingData ++ [(⟨f, sc⟩ : TrainingSample)]) := by
    unfold takeLast
    split
    · rfl
    · rw [Nat.sub_eq_zero_of_le (by omega), List.drop_zero]
  unfold addTrainingData
  dsimp only
  rw [htd]
  generalize takeLast 1000 (st.trainingData ++ [(⟨f, sc⟩ : TrainingSample)]) = T
  constructor
  · split
    · rcases htm : trainModel fit now
        { st with trainingData := T, mlTrainingDataStored := T,
                  lastTraining := some now } with ⟨st2, r⟩
      have hst2 : st2.trainingData = T := by
        have h1 := trainModel_trainingData fit now
          { st with trainingData := T, mlTrainingDataStored := T,
                    lastTraining := some now }
        rw [htm] at h1
        exact h1
      cases r with
      | ok u => exact hst2
      | error e => exact hst2
    · rfl
  · split
    · rename_i hcond
      rcases htm : trainModel fit now
        { st with trainingData := T, mlTrainingDataStored := T,
                  lastTraining := some now } with ⟨st2, r⟩
      cases r with
      | ok u => simpa using hcond
      | error e => simpa using hcond
    · rename_i hcond
      simpa using hcond

theorem addMany_trainingData (fit : Except String (ℚ × ℚ)) (now : ℤ) :
    ∀ (samples : List TrainingSample) (st : SysState),
      st.trainingData.length ≤ 1000 →
      (addMany fit now st samples).trainingData
        = takeLast 1000 (st.trainingData ++ samples) := by
  intro samples
  induction samples with
  | nil =>
    intro st h
    unfold addMany
    rw [List.append_nil]
    exact (takeLast_of_le h).symm
  | cons s rest ih =>
    intro st _
    unfold addMany
    have h1 := (addTrainingData_fst fit now st s.features s.score).1
    have heta : (⟨s.features, s.score⟩ : TrainingSample) = s := rfl
    rw [heta] at h1
    have hle : (addTrainingData fit now st s.features s.score).1.trainingData.length
        ≤ 1000 := by
      rw [h1, length_takeLast]
      omega
    rw [ih _ hle, h1, takeLast_append_takeLast, List.append_assoc,
      List.singleton_append]

/-! ### C6: bounded FIFO training set -/

/-- C6: every addTrainingData call appends the new sample and keeps exactly
the most recent 1000 samples in insertion order (so the size never exceeds
1000), and adding 1100 samples sequentially from a fresh service leaves
exactly the most recent 1000 in insertion order. -/
theorem MLService_training_set_fifo :
    (∀ fit now (st : SysState) f sc,
        (addTrainingData fit now st f sc).1.trainingData
          = takeLast 1000 (st.trainingData ++ [(⟨f, sc⟩ : TrainingSample)]))
  ∧ (∀ fit now (st : SysState) f sc,
        (addTrainingData fit now st f sc).1.trainingData.length ≤ 1000)
  ∧ (∀ fit now (samples : List TrainingSample), samples.length = 1100 →
        (addMany fit now initSys samples).trainingData = samples.drop 100) := by
  refine ⟨?_, ?_, ?_⟩
  · intro fit now st f sc
    exact (addTrainingData_fst fit now st f sc).1
  · intro fit now st f sc
    rw [(addTrainingData_fst fit now st f sc).1, length_takeLast]
    omega
  · intro fit now samples h
    rw [addMany_trainingData fit now samples initSys (by simp [initSys])]
    show takeLast 1000 ([] ++ samples) = samples.drop 100
    rw [List.nil_append]
    unfold takeLast
    rw [h]

/-- C6 witness: 1100 copies of a fixed sample. -/
theorem MLService_training_set_fifo_witness :
    (List.replicate 1100 sample0).length = 1100
  ∧ (addMany fit0 0 initSys (List.replicate 1100 sample0)).trainingData
      = (List.replicate 1100 sample0).drop 100 := by
  have hlen : (List.replicate 1100 sample0).length = 1100 := by
    rw [List.length_replicate]
  exact ⟨hlen, MLService_training_set_fifo.2.2 fit0 0 _ hlen⟩

/-! ### C7: the retrain trigger -/

/-- The retrain trigger after a sequence of additions from a fresh service:
trainModel is called on the next addition exactly when the trimmed new size,
min 1000 (previous additions + 1), is a multiple of 10. -/
theorem retrain_trigger_iff (fit : Except String (ℚ × ℚ)) (now : ℤ)
    (pre : List TrainingSample) (f : ProductFeatures) (sc : ℚ) :
    ((addTrainingData fit now (addMany fit now initSys pre) f sc).2 = true
      ↔ min 1000 (pre.length + 1) % 10 = 0) := by
  have hstate : (addMany fit now initSys pre).trainingData = takeLast 1000 pre := by
    rw [addMany_trainingData fit now pre initSys (by simp [initSys])]
    show takeLast 1000 ([] ++ pre) = takeLast 1000 pre
    rw [List.nil_append]
  have h2 := (addTrainingData_fst fit now (addMany fit now initSys pre) f sc).2
  rw [hstate] at h2
  rw [h2]
  rw [length_takeLast, List.length_append, length_takeLast]
  have hmin : min 1000 ((min 1000 pre.length) + [(⟨f, sc⟩ : TrainingSample)].length)
      = min 1000 (pre.length + 1) := by
    rw [List.length_singleton]
    omega
  rw [hmin]

/-- C7 counterexample: after 1000 additions from a fresh service the
training set is pinned at size 1000, so the 1001st addition calls
trainModel even though 1001 is not a multiple of 10. -/
theorem MLService_retrain_trigger_cex :
    (addTrainingData fit0 0 (addMany fit0 0 initSys (List.replicate 1000 sample0))
        sample0.features sample0.score).2 = true
  ∧ ¬ ((1000 + 1) % 10 = 0) := by
  constructor
  · rw [retrain_trigger_iff fit0 0 (List.replicate 1000 sample0)
      sample0.features sample0.score]
    rw [List.length_replicate]
    omega
  · decide

/-- C7 as amended: trainModel is called exactly on the additions for which
the trimmed post-append size, min 1000 (size + 1), is a multiple of 10;
starting from an empty set that is every 10th addition for the first 1000
additions, but every addition after the 1000th also triggers; and the
trigger is a no-op while a training run is in progress. -/
theorem MLService_retrain_trigger_amended :
    (∀ fit now (pre : List TrainingSample) f sc,
        ((addTrainingData fit now (addMany fit now initSys pre) f sc).2 = true
          ↔ min 1000 (pre.length + 1) % 10 = 0))
  ∧ (∀ fit now (pre : List TrainingSample) f sc, pre.length + 1 ≤ 1000 →
        ((addTrainingData fit now (addMany fit now initSys pre) f sc).2 = true
          ↔ (pre.length + 1) % 10 = 0))
  ∧ (∀ fit now (pre : List TrainingSample) f sc, 1000 ≤ pre.length →
        (addTrainingData fit now (addMany fit now initSys pre) f sc).2 = true)
  ∧ (∀ fit now (st : SysState), st.isTraining = true →
        trainModel fit now st = (st, Except.ok ())) := by
  refine ⟨?_, ?_, ?_, ?_⟩
  · intro fit now pre f sc
    exact retrain_trigger_iff fit now pre f sc
  · intro fit now pre f sc hle
    rw [retrain_trigger_iff fit now pre f sc]
    have hmin : min 1000 (pre.length + 1) = pre.length + 1 := by omega
    rw [hmin]
  · intro fit now pre f sc hge
    rw [retrain_trigger_iff fit now pre f sc]
    have hmin : min 1000 (pre.length + 1) = 1000 := by omega
    rw [hmin]
  · intro fit now st h
    exact trainModel_isTraining_noop fit now st h

/-- C7 amended witness: the 10th addition triggers, the 1001st addition
triggers, and trainModel is a no-op on a state already training. -/
theorem MLService_retrain_trigger_amended_witness :
    ((List.replicate 9 sample0).length + 1 ≤ 1000
      ∧ ((addTrainingData fit0 0 (addMany fit0 0 initSys (List.replicate 9 sample0))
            sample0.features sample0.score).2 = true
          ↔ ((List.replicate 9 sample0).length + 1) % 10 = 0))
  ∧ (1000 ≤ (List.replicate 1000 sample0).length
      ∧ (addTrainingData fit0 0 (addMany fit0 0 initSys (List.replicate 1000 sample0))
            sample0.features sample0.score).2 = true)
  ∧ ({ initSys with isTraining := true }.isTraining = true
      ∧ trainModel fit0 0 { initSys with isTraining := true }
          = ({ initSys with isTraining := true }, Except.ok ())) := by
  have h9 : (List.replicate 9 sample0).length + 1 ≤ 1000 := by
    rw [List.length_replicate]
    omega
  have h1000 : 1000 ≤ (List.replicate 1000 sample0).length := by
    rw [List.length_replicate]
  refine ⟨⟨h9, ?_⟩, ⟨h1000, ?_⟩, ⟨rfl, ?_⟩⟩
  · exact MLService_retrain_trigger_amended.2.1 fit0 0 _ _ _ h9
  · exact MLService_retrain_trigger_amended.2.2.1 fit0 0 _ _ _ h1000
  · exact MLService_retrain_trigger_amended.2.2.2 fit0 0 _ rfl

/-! ### C10: heuristic score bounds -/

/-- C10: the heuristic fallback score always lies in the closed interval
from 0.5 to 0.9: the base is 0.5, there are no negative adjustments, and at
most four increments of 0.1 apply, so the final clamp to the unit interval
never acts. -/
theorem ProductAnalyzer_heuristic_score_bounds :
    ∀ features : ProductFeatures,
      (1/2 : ℚ) ≤ calculateHeuristicScore features
      ∧ calculateHeuristicScore features ≤ 9/10 := by
  intro f
  have key : ∀ s : ℚ, 1/2 ≤ s → s ≤ 9/10 →
      ((1/2 : ℚ) ≤ min (max s 0) 1 ∧ min (max s 0) 1 ≤ 9/10) := by
    intro s h1 h2
    rw [max_eq_left (by linarith), min_eq_left (by linarith)]
    exact ⟨h1, h2⟩
  unfold calculateHeuristicScore
  dsimp only
  apply key
  · split_ifs <;> norm_num
  · split_ifs <;> norm_num

/-! ### Helper lemmas for the number-unit scanner -/

theorem toNat_ofNatAux (n : ℕ) (h : n.isValidChar) :
    (Char.ofNatAux n h).toNat = n := rfl

theorem isDig_lowerChar (c : Char) : isDig (lowerChar c) = isDig c := by
  unfold lowerChar
  split
  · rename_i h
    have hv : (c.toNat + 32).isValidChar := Or.inl (by omega)
    have h2 : Char.ofNat (c.toNat + 32) = Char.ofNatAux (c.toNat + 32) hv :=
      dif_pos hv
    rw [h2]
    have h4 : isDig (Char.ofNatAux (c.toNat + 32) hv) = false := by
      unfold isDig
      rw [toNat_ofNatAux]
      simp
      omega
    have h5 : isDig c = false := by
      unfold isDig
      simp
      omega
    rw [h4, h5]
  · rfl

theorem findNumUnit_append_noDig (units : List String) :
    ∀ (l1 : List Char), (∀ c ∈ l1, isDig c = false) → ∀ l2 : List Char,
      findNumUnit units (l1 ++ l2) = findNumUnit units l2 := by
  intro l1
  induction l1 with
  | nil => intro _ l2; rw [List.nil_append]
  | cons c t ih =>
    intro h l2
    have hc : isDig c = false := h c (List.mem_cons_self c t)
    have htail : ∀ x ∈ t, isDig x = false :=
      fun x hx => h x (List.mem_cons_of_mem c hx)
    rw [List.cons_append]
    conv_lhs => rw [findNumUnit]
    have htry : tryNumUnit units (c :: (t ++ l2)) = none := by
      unfold tryNumUnit
      have hds : (c :: (t ++ l2)).takeWhile isDig = [] := by
        rw [List.takeWhile_cons_of_neg (by simp [hc])]
      rw [hds]
      simp
    rw [htry]
    exact ih htail l2

theorem findNumUnit_none_of_noDig (units : List String) (l : List Char)
    (h : ∀ c ∈ l, isDig c = false) : findNumUnit units l = none := by
  have h2 := findNumUnit_append_noDig units l h []
  rw [List.append_nil] at h2
  rw [h2]
  rfl

theorem includesChars_append_right (l1 l2 sub : List Char)
    (h : includesChars l2 sub = true) : includesChars (l1 ++ l2) sub = true := by
  induction l1 with
  | nil => rw [List.nil_append]; exact h
  | cons c t ih =>
    rw [List.cons_append]
    show (startsWithChars (c :: (t ++ l2)) sub || includesChars (t ++ l2) sub) = true
    rw [ih]
    simp

theorem noDig_pre_space {pre : String} (hnd : noDigits pre) :
    ∀ c ∈ pre.data ++ [' '], isDig c = false := by
  intro c hc
  rcases List.mem_append.1 hc with h | h
  · exact hnd c h
  · simp only [List.mem_singleton] at h
    subst h
    rfl

theorem noDig_lower_pre_space {pre : String} (hnd : noDigits pre) :
    ∀ c ∈ (pre.data ++ [' ']).map lowerChar, isDig c = false := by
  intro c hc
  rw [List.mem_map] at hc
  obtain ⟨d, hd, rfl⟩ := hc
  rw [isDig_lowerChar]
  exact noDig_pre_space hnd d hd

/-- extractWeight scans past a digit-free title: its value is determined by
the description alone. -/
theorem extractWeight_split (pre D : String) (price : ℚ) (url : String)
    (hnd : noDigits pre) :
    extractWeight ⟨pre, D, price, url⟩
      = (match findNumUnit weightUnits D.data with
         | some vu => weightToKg vu
         | none => 0) := by
  unfold extractWeight
  dsimp only
  have hdata : (pre ++ " " ++ D).data = (pre.data ++ [' ']) ++ D.data := by
    rw [String.data_append, String.data_append]
  rw [hdata, findNumUnit_append_noDig weightUnits _ (noDig_pre_space hnd) D.data]

/-- estimateEnergyConsumption scans past a digit-free title: the number-unit
part is determined by the lower-cased description alone. -/
theorem estimateEnergy_split (pre D : String) (price : ℚ) (url : String)
    (hnd : noDigits pre) :
    estimateEnergyConsumption ⟨pre, D, price, url⟩
      = (match findNumUnit energyUnits ((toLowerStr D).data) with
         | some vu => energyToW vu
         | none =>
           if jsIncludes (toLowerStr (pre ++ " " ++ D)) "energy star" then 45
           else 0) := by
  unfold estimateEnergyConsumption
  dsimp only
  have hdata : (toLowerStr (pre ++ " " ++ D)).data
      = ((pre.data ++ [' ']).map lowerChar) ++ (toLowerStr D).data := by
    show ((pre ++ " " ++ D).data).map lowerChar = _
    rw [String.data_append, String.data_append]
    show ((pre.data ++ [' ']) ++ D.data).map lowerChar = _
    rw [List.map_append]
    rfl
  rw [hdata,
    findNumUnit_append_noDig energyUnits _ (noDig_lower_pre_space hnd) (toLowerStr D).data]

theorem weightToKg_kg (v : ℚ) : weightToKg (v, "kg") = v := by
  unfold weightToKg
  simp

theorem weightToKg_g (v : ℚ) : weightToKg (v, "g") = v / 1000 := by
  unfold weightToKg
  simp

theorem weightToKg_lb (v : ℚ) : weightToKg (v, "lb") = v * (0.45359237 : ℚ) := by
  unfold weightToKg
  simp

theorem weightToKg_lbs (v : ℚ) : weightToKg (v, "lbs") = v * (0.45359237 : ℚ) := by
  unfold weightToKg
  simp

theorem weightToKg_ounces (v : ℚ) :
    weightToKg (v, "ounces") = v * (0.0283495 : ℚ) := by
  unfold weightToKg
  simp

theorem energyToW_w (v : ℚ) : energyToW (v, "w") = v := by
  unfold energyToW
  simp [startsWithChars]

theorem energyToW_kw (v : ℚ) : energyToW (v, "kw") = v * 1000 := by
  unfold energyToW
  simp [startsWithChars]

theorem energyToW_kilowatts (v : ℚ) : energyToW (v, "kilowatts") = v := by
  unfold energyToW
  simp [startsWithChars]

theorem weightToKg_ounce (v : ℚ) :
    weightToKg (v, "ounce") = v * (0.0283495 : ℚ) := by
  unfold weightToKg
  simp

/-! ### The scanner on structured number-unit texts

The lemmas below settle the scanner symbolically: on a text made of a
digit-free piece, a digit run (optionally with a decimal fraction), a
whitespace run and a unit alternative followed by arbitrary trailing text,
the first match captures exactly that number and that alternative, and on a
text whose remainder matches no alternative the scan fails.  Together with
the capture lemmas for every member of the two alternations this determines
extractWeight and estimateEnergyConsumption on every product text of the
number-unit shape. -/

theorem startsWithCI_nil (l : List Char) : startsWithCI l [] = true := by
  cases l <;> rfl

theorem startsWithCI_cons (c : Char) (cs : List Char) (d : Char) (ds : List Char) :
    startsWithCI (c :: cs) (d :: ds) = ((lowerChar c == d) && startsWithCI cs ds) := rfl

theorem startsWithCI_head_ne {c d : Char} (h : (lowerChar c == d) = false)
    (cs ds : List Char) : startsWithCI (c :: cs) (d :: ds) = false := by
  rw [startsWithCI_cons, h, Bool.false_and]

theorem startsWithCI_head2_ne {c1 c2 d1 d2 : Char} (h1 : (lowerChar c1 == d1) = true)
    (h2 : (lowerChar c2 == d2) = false) (cs ds : List Char) :
    startsWithCI (c1 :: c2 :: cs) (d1 :: d2 :: ds) = false := by
  rw [startsWithCI_cons, startsWithCI_cons, h1, h2, Bool.false_and, Bool.and_false]

theorem startsWithCI_s_of_noLeadS {tail : List Char} (h : noLeadS tail) :
    startsWithCI tail ['s'] = false := by
  cases tail with
  | nil => rfl
  | cons c t =>
    rw [startsWithCI_cons]
    have hc : lowerChar c ≠ 's' := h c rfl
    rw [beq_eq_false_iff_ne.2 hc, Bool.false_and]

theorem isJsSpace_not_dig {c : Char} (h : isJsSpace c = true) : isDig c = false := by
  unfold isJsSpace at h
  unfold isDig
  simp at h ⊢
  omega

theorem isJsSpace_ne_dot {c : Char} (h : isJsSpace c = true) : c ≠ '.' := by
  intro he
  rw [he] at h
  exact absurd h (by decide)

theorem matchUnit_cons_of_true {l : List Char} {u : String} {us : List String}
    (h : startsWithCI l u.data = true) : matchUnit (u :: us) l = some u := by
  unfold matchUnit
  rw [List.findSome?_cons]
  rw [h]
  simp

theorem matchUnit_cons_of_false {l : List Char} {u : String} {us : List String}
    (h : startsWithCI l u.data = false) : matchUnit (u :: us) l = matchUnit us l := by
  unfold matchUnit
  rw [List.findSome?_cons]
  rw [h]
  simp

theorem matchUnit_kg (tail : List Char) :
    matchUnit weightUnits ('k' :: 'g' :: tail) = some "kg" := by
  unfold weightUnits
  apply matchUnit_cons_of_true
  rw [show ("kg".data) = ['k', 'g'] from rfl, startsWithCI_cons, startsWithCI_cons,
    startsWithCI_nil]
  decide

theorem matchUnit_g (tail : List Char) :
    matchUnit weightUnits ('g' :: tail) = some "g" := by
  have h1 : startsWithCI ('g' :: tail) ("kg".data) = false := by
    rw [show ("kg".data) = ['k', 'g'] from rfl]
    exact startsWithCI_head_ne (by decide) _ _
  have h2 : startsWithCI ('g' :: tail) ("g".data) = true := by
    rw [show ("g".data) = ['g'] from rfl, startsWithCI_cons, startsWithCI_nil]
    decide
  unfold weightUnits
  rw [matchUnit_cons_of_false h1, matchUnit_cons_of_true h2]

theorem matchUnit_lbs (tail : List Char) :
    matchUnit weightUnits ('l' :: 'b' :: 's' :: tail) = some "lbs" := by
  have h1 : startsWithCI ('l' :: 'b' :: 's' :: tail) ("kg".data) = false := by
    rw [show ("kg".data) = ['k', 'g'] from rfl]
    exact startsWithCI_head_ne (by decide) _ _
  have h2 : startsWithCI ('l' :: 'b' :: 's' :: tail) ("g".data) = false := by
    rw [show ("g".data) = ['g'] from rfl]
    exact startsWithCI_head_ne (by decide) _ _
  have h3 : startsWithCI ('l' :: 'b' :: 's' :: tail) ("lbs".data) = true := by
    rw [show ("lbs".data) = ['l', 'b', 's'] from rfl, startsWithCI_cons, startsWithCI_cons,
      startsWithCI_cons, startsWithCI_nil]
    decide
  unfold weightUnits
  rw [matchUnit_cons_of_false h1, matchUnit_cons_of_false h2, matchUnit_cons_of_true h3]

theorem matchUnit_lb (tail : List Char) (h : noLeadS tail) :
    matchUnit weightUnits ('l' :: 'b' :: tail) = some "lb" := by
  have h1 : startsWithCI ('l' :: 'b' :: tail) ("kg".data) = false := by
    rw [show ("kg".data) = ['k', 'g'] from rfl]
    exact startsWithCI_head_ne (by decide) _ _
  have h2 : startsWithCI ('l' :: 'b' :: tail) ("g".data) = false := by
    rw [show ("g".data) = ['g'] from rfl]
    exact startsWithCI_head_ne (by decide) _ _
  have h3 : startsWithCI ('l' :: 'b' :: tail) ("lbs".data) = false := by
    rw [show ("lbs".data) = ['l', 'b', 's'] from rfl, startsWithCI_cons, startsWithCI_cons,
      startsWithCI_s_of_noLeadS h]
    decide
  have h4 : startsWithCI ('l' :: 'b' :: tail) ("lb".data) = true := by
    rw [show ("lb".data) = ['l', 'b'] from rfl, startsWithCI_cons, startsWithCI_cons,
      startsWithCI_nil]
    decide
  unfold weightUnits
  rw [matchUnit_cons_of_false h1, matchUnit_cons_of_false h2, matchUnit_cons_of_false h3,
    matchUnit_cons_of_true h4]

theorem matchUnit_ounces (tail : List Char) :
    matchUnit weightUnits ('o' :: 'u' :: 'n' :: 'c' :: 'e' :: 's' :: tail) = some "ounces" := by
  have h1 : startsWithCI ('o' :: 'u' :: 'n' :: 'c' :: 'e' :: 's' :: tail) ("kg".data)
      = false := by
    rw [show ("kg".data) = ['k', 'g'] from rfl]
    exact startsWithCI_head_ne (by decide) _ _
  have h2 : startsWithCI ('o' :: 'u' :: 'n' :: 'c' :: 'e' :: 's' :: tail) ("g".data)
      = false := by
    rw [show ("g".data) = ['g'] from rfl]
    exact startsWithCI_head_ne (by decide) _ _
  have h3 : startsWithCI ('o' :: 'u' :: 'n' :: 'c' :: 'e' :: 's' :: tail) ("lbs".data)
      = false := by
    rw [show ("lbs".data) = ['l', 'b', 's'] from rfl]
    exact startsWithCI_head_ne (by decide) _ _
  have h4 : startsWithCI ('o' :: 'u' :: 'n' :: 'c' :: 'e' :: 's' :: tail) ("lb".data)
      = false := by
    rw [show ("lb".data) = ['l', 'b'] from rfl]
    exact startsWithCI_head_ne (by decide) _ _
  have h5 : startsWithCI ('o' :: 'u' :: 'n' :: 'c' :: 'e' :: 's' :: tail) ("ounces".data)
      = true := by
    rw [show ("ounces".data) = ['o', 'u', 'n', 'c', 'e', 's'] from rfl, startsWithCI_cons,
      startsWithCI_cons, startsWithCI_cons, startsWithCI_cons, startsWithCI_cons,
      startsWithCI_cons, startsWithCI_nil]
    decide
  unfold weightUnits
  rw [matchUnit_cons_of_false h1, matchUnit_cons_of_false h2, matchUnit_cons_of_false h3,
    matchUnit_cons_of_false h4, matchUnit_cons_of_true h5]

theorem matchUnit_ounce (tail : List Char) (h : noLeadS tail) :
    matchUnit weightUnits ('o' :: 'u' :: 'n' :: 'c' :: 'e' :: tail) = some "ounce" := by
  have h1 : startsWithCI ('o' :: 'u' :: 'n' :: 'c' :: 'e' :: tail) ("kg".data) = false := by
    rw [show ("kg".data) = ['k', 'g'] from rfl]
    exact startsWithCI_head_ne (by decide) _ _
  have h2 : startsWithCI ('o' :: 'u' :: 'n' :: 'c' :: 'e' :: tail) ("g".data) = false := by
    rw [show ("g".data) = ['g'] from rfl]
    exact startsWithCI_head_ne (by decide) _ _
  have h3 : startsWithCI ('o' :: 'u' :: 'n' :: 'c' :: 'e' :: tail) ("lbs".data) = false := by
    rw [show ("lbs".data) = ['l', 'b', 's'] from rfl]
    exact startsWithCI_head_ne (by decide) _ _
  have h4 : startsWithCI ('o' :: 'u' :: 'n' :: 'c' :: 'e' :: tail) ("lb".data) = false := by
    rw [show ("lb".data) = ['l', 'b'] from rfl]
    exact startsWithCI_head_ne (by decide) _ _
  have h5 : startsWithCI ('o' :: 'u' :: 'n' :: 'c' :: 'e' :: tail) ("ounces".data)
      = false := by
    rw [show ("ounces".data) = ['o', 'u', 'n', 'c', 'e', 's'] from rfl, startsWithCI_cons,
      startsWithCI_cons, startsWithCI_cons, startsWithCI_cons, startsWithCI_cons,
      startsWithCI_s_of_noLeadS h]
    decide
  have h6 : startsWithCI ('o' :: 'u' :: 'n' :: 'c' :: 'e' :: tail) ("ounce".data) = true := by
    rw [show ("ounce".data) = ['o', 'u', 'n', 'c', 'e'] from rfl, startsWithCI_cons,
      startsWithCI_cons, startsWithCI_cons, startsWithCI_cons, startsWithCI_cons,
      startsWithCI_nil]
    decide
  unfold weightUnits
  rw [matchUnit_cons_of_false h1, matchUnit_cons_of_false h2, matchUnit_cons_of_false h3,
    matchUnit_cons_of_false h4, matchUnit_cons_of_false h5, matchUnit_cons_of_true h6]

theorem matchUnit_oz_none (tail : List Char) :
    matchUnit weightUnits ('o' :: 'z' :: tail) = none := by
  have h1 : startsWithCI ('o' :: 'z' :: tail) ("kg".data) = false := by
    rw [show ("kg".data) = ['k', 'g'] from rfl]
    exact startsWithCI_head_ne (by decide) _ _
  have h2 : startsWithCI ('o' :: 'z' :: tail) ("g".data) = false := by
    rw [show ("g".data) = ['g'] from rfl]
    exact startsWithCI_head_ne (by decide) _ _
  have h3 : startsWithCI ('o' :: 'z' :: tail) ("lbs".data) = false := by
    rw [show ("lbs".data) = ['l', 'b', 's'] from rfl]
    exact startsWithCI_head_ne (by decide) _ _
  have h4 : startsWithCI ('o' :: 'z' :: tail) ("lb".data) = false := by
    rw [show ("lb".data) = ['l', 'b'] from rfl]
    exact startsWithCI_head_ne (by decide) _ _
  have h5 : startsWithCI ('o' :: 'z' :: tail) ("ounces".data) = false := by
    rw [show ("ounces".data) = ['o', 'u', 'n', 'c', 'e', 's'] from rfl]
    exact startsWithCI_head2_ne (by decide) (by decide) _ _
  have h6 : startsWithCI ('o' :: 'z' :: tail) ("ounce".data) = false := by
    rw [show ("ounce".data) = ['o', 'u', 'n', 'c', 'e'] from rfl]
    exact startsWithCI_head2_ne (by decide) (by decide) _ _
  unfold weightUnits
  rw [matchUnit_cons_of_false h1, matchUnit_cons_of_false h2, matchUnit_cons_of_false h3,
    matchUnit_cons_of_false h4, matchUnit_cons_of_false h5, matchUnit_cons_of_false h6]
  rfl

theorem matchUnit_w (tail : List Char) :
    matchUnit energyUnits ('w' :: tail) = some "w" := by
  have h1 : startsWithCI ('w' :: tail) ("w".data) = true := by
    rw [show ("w".data) = ['w'] from rfl, startsWithCI_cons, startsWithCI_nil]
    decide
  unfold energyUnits
  rw [matchUnit_cons_of_true h1]

theorem matchUnit_kw (tail : List Char) :
    matchUnit energyUnits ('k' :: 'w' :: tail) = some "kw" := by
  have h1 : startsWithCI ('k' :: 'w' :: tail) ("w".data) = false := by
    rw [show ("w".data) = ['w'] from rfl]
    exact startsWithCI_head_ne (by decide) _ _
  have h2 : startsWithCI ('k' :: 'w' :: tail) ("watts".data) = false := by
    rw [show ("watts".data) = ['w', 'a', 't', 't', 's'] from rfl]
    exact startsWithCI_head_ne (by decide) _ _
  have h3 : startsWithCI ('k' :: 'w' :: tail) ("watt".data) = false := by
    rw [show ("watt".data) = ['w', 'a', 't', 't'] from rfl]
    exact startsWithCI_head_ne (by decide) _ _
  have h4 : startsWithCI ('k' :: 'w' :: tail) ("kw".data) = true := by
    rw [show ("kw".data) = ['k', 'w'] from rfl, startsWithCI_cons, startsWithCI_cons,
      startsWithCI_nil]
    decide
  unfold energyUnits
  rw [matchUnit_cons_of_false h1, matchUnit_cons_of_false h2, matchUnit_cons_of_false h3,
    matchUnit_cons_of_true h4]

theorem matchUnit_kilowatts (tail : List Char) :
    matchUnit energyUnits ('k' :: 'i' :: 'l' :: 'o' :: 'w' :: 'a' :: 't' :: 't' :: 's' :: tail)
      = some "kilowatts" := by
  have h1 : startsWithCI ('k' :: 'i' :: 'l' :: 'o' :: 'w' :: 'a' :: 't' :: 't' :: 's' :: tail)
      ("w".data) = false := by
    rw [show ("w".data) = ['w'] from rfl]
    exact startsWithCI_head_ne (by decide) _ _
  have h2 : startsWithCI ('k' :: 'i' :: 'l' :: 'o' :: 'w' :: 'a' :: 't' :: 't' :: 's' :: tail)
      ("watts".data) = false := by
    rw [show ("watts".data) = ['w', 'a', 't', 't', 's'] from rfl]
    exact startsWithCI_head_ne (by decide) _ _
  have h3 : startsWithCI ('k' :: 'i' :: 'l' :: 'o' :: 'w' :: 'a' :: 't' :: 't' :: 's' :: tail)
      ("watt".data) = false := by
    rw [show ("watt".data) = ['w', 'a', 't', 't'] from rfl]
    exact startsWithCI_head_ne (by decide) _ _
  have h4 : startsWithCI ('k' :: 'i' :: 'l' :: 'o' :: 'w' :: 'a' :: 't' :: 't' :: 's' :: tail)
      ("kw".data) = false := by
    rw [show ("kw".data) = ['k', 'w'] from rfl]
    exact startsWithCI_head2_ne (by decide) (by decide) _ _
  have h5 : startsWithCI ('k' :: 'i' :: 'l' :: 'o' :: 'w' :: 'a' :: 't' :: 't' :: 's' :: tail)
      ("kilowatts".data) = true := by
    rw [show ("kilowatts".data) = ['k', 'i', 'l', 'o', 'w', 'a', 't', 't', 's'] from rfl,
      startsWithCI_cons, startsWithCI_cons, startsWithCI_cons, startsWithCI_cons,
      startsWithCI_cons, startsWithCI_cons, startsWithCI_cons, startsWithCI_cons,
      startsWithCI_cons, startsWithCI_nil]
    decide
  unfold energyUnits
  rw [matchUnit_cons_of_false h1, matchUnit_cons_of_false h2, matchUnit_cons_of_false h3,
    matchUnit_cons_of_false h4, matchUnit_cons_of_true h5]

theorem takeWhile_dropWhile_append (p : Char → Bool) :
    ∀ (l r : List Char), (∀ c ∈ l, p c = true) →
      (∀ c0, r.head? = some c0 → p c0 = false) →
      (l ++ r).takeWhile p = l ∧ (l ++ r).dropWhile p = r := by
  intro l
  induction l with
  | nil =>
    intro r _ hr
    rw [List.nil_append]
    cases r with
    | nil => exact ⟨rfl, rfl⟩
    | cons c t =>
      have hc : p c = false := hr c rfl
      exact ⟨List.takeWhile_cons_of_neg (by simp [hc]),
        List.dropWhile_cons_of_neg (by simp [hc])⟩
  | cons c t ih =>
    intro r hl hr
    have hc : p c = true := hl c (List.mem_cons_self c t)
    have ht : ∀ x ∈ t, p x = true := fun x hx => hl x (List.mem_cons_of_mem c hx)
    obtain ⟨ih1, ih2⟩ := ih r ht hr
    rw [List.cons_append]
    constructor
    · rw [List.takeWhile_cons_of_pos (by simp [hc]), ih1]
    · rw [List.dropWhile_cons_of_pos (by simp [hc]), ih2]

theorem tryNumUnit_int_eval (units : List String) (ds sp rest : List Char)
    (hne : ds ≠ []) (hdig : ∀ c ∈ ds, isDig c = true)
    (hsp : ∀ c ∈ sp, isJsSpace c = true)
    (hc0 : ∃ c0, rest.head? = some c0 ∧ isDig c0 = false ∧ isJsSpace c0 = false ∧ c0 ≠ '.') :
    tryNumUnit units (ds ++ (sp ++ rest))
      = (matchUnit units rest).map (fun u => ((natVal ds : ℚ), u)) := by
  obtain ⟨c0, hhead, hc0d, hc0w, hc0dot⟩ := hc0
  have hspr : ∀ c1, (sp ++ rest).head? = some c1 → isDig c1 = false := by
    intro c1 h1
    cases sp with
    | nil =>
      rw [List.nil_append] at h1
      rw [hhead] at h1
      injection h1 with h1
      rw [← h1]
      exact hc0d
    | cons s st =>
      rw [List.cons_append, List.head?_cons] at h1
      injection h1 with h1
      rw [← h1]
      exact isJsSpace_not_dig (hsp s (List.mem_cons_self s st))
  obtain ⟨htake, hdrop⟩ := takeWhile_dropWhile_append isDig ds (sp ++ rest) hdig hspr
  have hrw : ∀ c1, rest.head? = some c1 → isJsSpace c1 = false := by
    intro c1 h1
    rw [hhead] at h1
    injection h1 with h1
    rw [← h1]
    exact hc0w
  obtain ⟨htws, hdropws⟩ := takeWhile_dropWhile_append isJsSpace sp rest hsp hrw
  have hEmpty : ds.isEmpty = false := by
    cases ds with
    | nil => exact absurd rfl hne
    | cons a t => rfl
  unfold tryNumUnit
  dsimp only
  rw [htake, hdrop, hEmpty]
  rw [if_neg (by decide)]
  split
  · rename_i r2 heq
    exfalso
    cases sp with
    | nil =>
      rw [List.nil_append] at heq
      rw [heq, List.head?_cons] at hhead
      injection hhead with hh
      exact hc0dot hh.symm
    | cons s st =>
      rw [List.cons_append] at heq
      injection heq with hh1 hh2
      exact isJsSpace_ne_dot (hsp s (List.mem_cons_self s st)) hh1
  · rw [hdropws]

theorem tryNumUnit_frac_eval (units : List String) (ds fs sp rest : List Char) (cap : String)
    (hne : ds ≠ []) (hdig : ∀ c ∈ ds, isDig c = true)
    (hfne : fs ≠ []) (hfdig : ∀ c ∈ fs, isDig c = true)
    (hsp : ∀ c ∈ sp, isJsSpace c = true)
    (hc0 : ∃ c0, rest.head? = some c0 ∧ isDig c0 = false ∧ isJsSpace c0 = false ∧ c0 ≠ '.')
    (hmu : matchUnit units rest = some cap) :
    tryNumUnit units (ds ++ ('.' :: (fs ++ (sp ++ rest)))) = some (decVal ds fs, cap) := by
  obtain ⟨c0, hhead, hc0d, hc0w, hc0dot⟩ := hc0
  have hdot : ∀ c1, ('.' :: (fs ++ (sp ++ rest))).head? = some c1 → isDig c1 = false := by
    intro c1 h1
    rw [List.head?_cons] at h1
    injection h1 with h1
    rw [← h1]
    decide
  obtain ⟨htake, hdrop⟩ :=
    takeWhile_dropWhile_append isDig ds ('.' :: (fs ++ (sp ++ rest))) hdig hdot
  have hspr : ∀ c1, (sp ++ rest).head? = some c1 → isDig c1 = false := by
    intro c1 h1
    cases sp with
    | nil =>
      rw [List.nil_append] at h1
      rw [hhead] at h1
      injection h1 with h1
      rw [← h1]
      exact hc0d
    | cons s st =>
      rw [List.cons_append, List.head?_cons] at h1
      injection h1 with h1
      rw [← h1]
      exact isJsSpace_not_dig (hsp s (List.mem_cons_self s st))
  obtain ⟨htake2, hdrop2⟩ := takeWhile_dropWhile_append isDig fs (sp ++ rest) hfdig hspr
  have hrw : ∀ c1, rest.head? = some c1 → isJsSpace c1 = false := by
    intro c1 h1
    rw [hhead] at h1
    injection h1 with h1
    rw [← h1]
    exact hc0w
  obtain ⟨htws, hdropws⟩ := takeWhile_dropWhile_append isJsSpace sp rest hsp hrw
  have hEmpty : ds.isEmpty = false := by
    cases ds with
    | nil => exact absurd rfl hne
    | cons a t => rfl
  have hfEmpty : fs.isEmpty = false := by
    cases fs with
    | nil => exact absurd rfl hfne
    | cons a t => rfl
  unfold tryNumUnit
  dsimp only
  rw [htake, hdrop, hEmpty]
  rw [if_neg (by decide)]
  split
  · rename_i r2 heq
    injection heq with hh1 hh2
    subst hh2
    rw [htake2, hdrop2, hfEmpty]
    rw [if_neg (by decide)]
    rw [hdropws, hmu]
  · rename_i hno
    exact absurd rfl (hno (fs ++ (sp ++ rest)))

theorem findNumUnit_of_try (units : List String) (l : List Char) (m : ℚ × String)
    (h : tryNumUnit units l = some m) : findNumUnit units l = some m := by
  cases l with
  | nil =>
    rw [show tryNumUnit units [] = (none : Option (ℚ × String)) from rfl] at h
    exact Option.noConfusion h
  | cons c t =>
    conv_lhs => rw [findNumUnit]
    rw [h]

theorem findNumUnit_structured_some (units : List String) (ds sp rest : List Char)
    (cap : String) (hne : ds ≠ []) (hdig : ∀ c ∈ ds, isDig c = true)
    (hsp : ∀ c ∈ sp, isJsSpace c = true)
    (hc0 : ∃ c0, rest.head? = some c0 ∧ isDig c0 = false ∧ isJsSpace c0 = false ∧ c0 ≠ '.')
    (hmu : matchUnit units rest = some cap) :
    findNumUnit units (ds ++ (sp ++ rest)) = some ((natVal ds : ℚ), cap) := by
  apply findNumUnit_of_try
  rw [tryNumUnit_int_eval units ds sp rest hne hdig hsp hc0, hmu]
  rfl

theorem findNumUnit_structured_frac (units : List String) (ds fs sp rest : List Char)
    (cap : String) (hne : ds ≠ []) (hdig : ∀ c ∈ ds, isDig c = true)
    (hfne : fs ≠ []) (hfdig : ∀ c ∈ fs, isDig c = true)
    (hsp : ∀ c ∈ sp, isJsSpace c = true)
    (hc0 : ∃ c0, rest.head? = some c0 ∧ isDig c0 = false ∧ isJsSpace c0 = false ∧ c0 ≠ '.')
    (hmu : matchUnit units rest = some cap) :
    findNumUnit units (ds ++ ('.' :: (fs ++ (sp ++ rest)))) = some (decVal ds fs, cap) := by
  apply findNumUnit_of_try
  exact tryNumUnit_frac_eval units ds fs sp rest cap hne hdig hfne hfdig hsp hc0 hmu

theorem findNumUnit_structured_none (units : List String) (ds sp rest : List Char)
    (hdig : ∀ c ∈ ds, isDig c = true)
    (hsp : ∀ c ∈ sp, isJsSpace c = true)
    (hrd : ∀ c ∈ rest, isDig c = false)
    (hc0 : ∃ c0, rest.head? = some c0 ∧ isDig c0 = false ∧ isJsSpace c0 = false ∧ c0 ≠ '.')
    (hmu : matchUnit units rest = none) :
    findNumUnit units (ds ++ (sp ++ rest)) = none := by
  induction ds with
  | nil =>
    rw [List.nil_append]
    apply findNumUnit_none_of_noDig
    intro c hc
    rcases List.mem_append.1 hc with h | h
    · exact isJsSpace_not_dig (hsp c h)
    · exact hrd c h
  | cons d t ih =>
    rw [List.cons_append]
    conv_lhs => rw [findNumUnit]
    have htry : tryNumUnit units (d :: (t ++ (sp ++ rest))) = none := by
      have he := tryNumUnit_int_eval units (d :: t) sp rest (by simp) hdig hsp hc0
      rw [List.cons_append] at he
      rw [he, hmu]
      rfl
    rw [htry]
    exact ih (fun x hx => hdig x (List.mem_cons_of_mem d hx))

theorem lowerChar_of_isDig {c : Char} (h : isDig c = true) : lowerChar c = c := by
  unfold isDig at h
  simp at h
  unfold lowerChar
  rw [if_neg (by omega)]

theorem lowerChar_of_isJsSpace {c : Char} (h : isJsSpace c = true) : lowerChar c = c := by
  unfold isJsSpace at h
  simp at h
  unfold lowerChar
  rw [if_neg (by omega)]

theorem map_lowerChar_digits {ds : List Char} (h : ∀ c ∈ ds, isDig c = true) :
    ds.map lowerChar = ds := by
  induction ds with
  | nil => rfl
  | cons c t ih =>
    rw [List.map_cons, lowerChar_of_isDig (h c (List.mem_cons_self c t)),
      ih (fun x hx => h x (List.mem_cons_of_mem c hx))]

theorem map_lowerChar_spaces {sp : List Char} (h : ∀ c ∈ sp, isJsSpace c = true) :
    sp.map lowerChar = sp := by
  induction sp with
  | nil => rfl
  | cons c t ih =>
    rw [List.map_cons, lowerChar_of_isJsSpace (h c (List.mem_cons_self c t)),
      ih (fun x hx => h x (List.mem_cons_of_mem c hx))]

/-! ### C9: weight and energy extraction -/

/-- C9 counterexample: the weight regex alternation is kg|g|lbs?|ounces?,
so the bare abbreviation oz is not recognized: a product whose text contains
the pattern 5 oz extracts weight 0, not 5 times 0.0283495. -/
theorem ProductAnalyzer_extraction_units_cex :
    extractWeight rawOz = 0
  ∧ ¬ ((0 : ℚ) = 5 * (0.0283495 : ℚ)) := by
  constructor
  · rfl
  · norm_num

/-- C9 as amended: extraction is total and normalizes units, universally
over every product text containing the number-unit pattern.  For any
digit-free title, any number (a digit run, optionally with a decimal
fraction), any whitespace run and any trailing text: a weight unit spelled
kg, g, lbs, lb, ounces or ounce yields that number converted to kilograms
(g divided by 1000, lb and lbs times 0.45359237, ounce and ounces times
0.0283495, kg unchanged), where for the singular lb and ounce the trailing
text must not begin with the letter s, which the greedy optional s of the
regex would absorb into the plural; the abbreviation oz is not in the
alternation and degrades to the 0 default; the energy spellings w, watt and
watts all capture the alternative w and are taken as watts unchanged, kw
multiplies by 1000, and the spelled-out kilowatts is captured but not
scaled because the code tests startsWith kw on the captured unit; and for
any product with a digit-free text, where no number-unit pattern can exist,
weight degrades to 0 and energy to 45 when the text mentions Energy Star
and to 0 otherwise - never an error. -/
theorem ProductAnalyzer_extraction_units_amended :
    (∀ (pre : String) (price : ℚ) (url : String) (ds sp tail : List Char),
      noDigits pre → digitsRun ds → spacesRun sp →
        extractWeight ⟨pre, String.mk (ds ++ (sp ++ ('k' :: 'g' :: tail))), price, url⟩
          = (natVal ds : ℚ)
      ∧ extractWeight ⟨pre, String.mk (ds ++ (sp ++ ('g' :: tail))), price, url⟩
          = (natVal ds : ℚ) / 1000
      ∧ extractWeight ⟨pre, String.mk (ds ++ (sp ++ ('l' :: 'b' :: 's' :: tail))), price, url⟩
          = (natVal ds : ℚ) * (0.45359237 : ℚ)
      ∧ (noLeadS tail →
          extractWeight ⟨pre, String.mk (ds ++ (sp ++ ('l' :: 'b' :: tail))), price, url⟩
            = (natVal ds : ℚ) * (0.45359237 : ℚ))
      ∧ extractWeight
            ⟨pre, String.mk (ds ++ (sp ++ ('o' :: 'u' :: 'n' :: 'c' :: 'e' :: 's' :: tail))),
             price, url⟩
          = (natVal ds : ℚ) * (0.0283495 : ℚ)
      ∧ (noLeadS tail →
          extractWeight
              ⟨pre, String.mk (ds ++ (sp ++ ('o' :: 'u' :: 'n' :: 'c' :: 'e' :: tail))),
               price, url⟩
            = (natVal ds : ℚ) * (0.0283495 : ℚ))
      ∧ ((∀ c ∈ tail, isDig c = false) →
          extractWeight ⟨pre, String.mk (ds ++ (sp ++ ('o' :: 'z' :: tail))), price, url⟩ = 0)
      ∧ estimateEnergyConsumption ⟨pre, String.mk (ds ++ (sp ++ ('w' :: tail))), price, url⟩
          = (natVal ds : ℚ)
      ∧ estimateEnergyConsumption
            ⟨pre, String.mk (ds ++ (sp ++ ('w' :: 'a' :: 't' :: 't' :: tail))), price, url⟩
          = (natVal ds : ℚ)
      ∧ estimateEnergyConsumption
            ⟨pre, String.mk (ds ++ (sp ++ ('w' :: 'a' :: 't' :: 't' :: 's' :: tail))),
             price, url⟩
          = (natVal ds : ℚ)
      ∧ estimateEnergyConsumption
            ⟨pre, String.mk (ds ++ (sp ++ ('k' :: 'w' :: tail))), price, url⟩
          = (natVal ds : ℚ) * 1000
      ∧ estimateEnergyConsumption
            ⟨pre,
             String.mk
               (ds ++
                 (sp ++ ('k' :: 'i' :: 'l' :: 'o' :: 'w' :: 'a' :: 't' :: 't' :: 's' :: tail))),
             price, url⟩
          = (natVal ds : ℚ))
  ∧ (∀ (pre : String) (price : ℚ) (url : String) (ds fs sp tail : List Char),
      noDigits pre → digitsRun ds → digitsRun fs → spacesRun sp →
        extractWeight
            ⟨pre, String.mk (ds ++ ('.' :: (fs ++ (sp ++ ('k' :: 'g' :: tail))))), price, url⟩
          = decVal ds fs
      ∧ estimateEnergyConsumption
            ⟨pre, String.mk (ds ++ ('.' :: (fs ++ (sp ++ ('k' :: 'w' :: tail))))), price, url⟩
          = decVal ds fs * 1000)
  ∧ (∀ raw : RawProductData, noDigits raw.title → noDigits raw.description →
        extractWeight raw = 0
      ∧ (jsIncludes (toLowerStr (raw.title ++ " " ++ raw.description)) "energy star" = true →
          estimateEnergyConsumption raw = 45)
      ∧ (jsIncludes (toLowerStr (raw.title ++ " " ++ raw.description)) "energy star" = false →
          estimateEnergyConsumption raw = 0)) := by
  refine ⟨?_, ?_, ?_⟩
  · intro pre price url ds sp tail hnd hds hsp
    obtain ⟨hdne, hdig⟩ := hds
    refine ⟨?_, ?_, ?_, ?_, ?_, ?_, ?_, ?_, ?_, ?_, ?_, ?_⟩
    · rw [extractWeight_split pre (String.mk (ds ++ (sp ++ ('k' :: 'g' :: tail)))) price url hnd]
      rw [show (String.mk (ds ++ (sp ++ ('k' :: 'g' :: tail)))).data
          = ds ++ (sp ++ ('k' :: 'g' :: tail)) from rfl]
      rw [findNumUnit_structured_some weightUnits ds sp ('k' :: 'g' :: tail) "kg" hdne hdig hsp
        ⟨'k', rfl, by decide, by decide, by decide⟩ (matchUnit_kg tail)]
      show weightToKg ((natVal ds : ℚ), "kg") = (natVal ds : ℚ)
      exact weightToKg_kg _
    · rw [extractWeight_split pre (String.mk (ds ++ (sp ++ ('g' :: tail)))) price url hnd]
      rw [show (String.mk (ds ++ (sp ++ ('g' :: tail)))).data
          = ds ++ (sp ++ ('g' :: tail)) from rfl]
      rw [findNumUnit_structured_some weightUnits ds sp ('g' :: tail) "g" hdne hdig hsp
        ⟨'g', rfl, by decide, by decide, by decide⟩ (matchUnit_g tail)]
      show weightToKg ((natVal ds : ℚ), "g") = (natVal ds : ℚ) / 1000
      exact weightToKg_g _
    · rw [extractWeight_split pre (String.mk (ds ++ (sp ++ ('l' :: 'b' :: 's' :: tail)))) price
        url hnd]
      rw [show (String.mk (ds ++ (sp ++ ('l' :: 'b' :: 's' :: tail)))).data
          = ds ++ (sp ++ ('l' :: 'b' :: 's' :: tail)) from rfl]
      rw [findNumUnit_structured_some weightUnits ds sp ('l' :: 'b' :: 's' :: tail) "lbs" hdne
        hdig hsp ⟨'l', rfl, by decide, by decide, by decide⟩ (matchUnit_lbs tail)]
      show weightToKg ((natVal ds : ℚ), "lbs") = (natVal ds : ℚ) * (0.45359237 : ℚ)
      exact weightToKg_lbs _
    · intro hs
      rw [extractWeight_split pre (String.mk (ds ++ (sp ++ ('l' :: 'b' :: tail)))) price url hnd]
      rw [show (String.mk (ds ++ (sp ++ ('l' :: 'b' :: tail)))).data
          = ds ++ (sp ++ ('l' :: 'b' :: tail)) from rfl]
      rw [findNumUnit_structured_some weightUnits ds sp ('l' :: 'b' :: tail) "lb" hdne hdig hsp
        ⟨'l', rfl, by decide, by decide, by decide⟩ (matchUnit_lb tail hs)]
      show weightToKg ((natVal ds : ℚ), "lb") = (natVal ds : ℚ) * (0.45359237 : ℚ)
      exact weightToKg_lb _
    · rw [extractWeight_split pre
        (String.mk (ds ++ (sp ++ ('o' :: 'u' :: 'n' :: 'c' :: 'e' :: 's' :: tail)))) price url
        hnd]
      rw [show (String.mk (ds ++ (sp ++ ('o' :: 'u' :: 'n' :: 'c' :: 'e' :: 's' :: tail)))).data
          = ds ++ (sp ++ ('o' :: 'u' :: 'n' :: 'c' :: 'e' :: 's' :: tail)) from rfl]
      rw [findNumUnit_structured_some weightUnits ds sp
        ('o' :: 'u' :: 'n' :: 'c' :: 'e' :: 's' :: tail) "ounces" hdne hdig hsp
        ⟨'o', rfl, by decide, by decide, by decide⟩ (matchUnit_ounces tail)]
      show weightToKg ((natVal ds : ℚ), "ounces") = (natVal ds : ℚ) * (0.0283495 : ℚ)
      exact weightToKg_ounces _
    · intro hs
      rw [extractWeight_split pre
        (String.mk (ds ++ (sp ++ ('o' :: 'u' :: 'n' :: 'c' :: 'e' :: tail)))) price url hnd]
      rw [show (String.mk (ds ++ (sp ++ ('o' :: 'u' :: 'n' :: 'c' :: 'e' :: tail)))).data
          = ds ++ (sp ++ ('o' :: 'u' :: 'n' :: 'c' :: 'e' :: tail)) from rfl]
      rw [findNumUnit_structured_some weightUnits ds sp
        ('o' :: 'u' :: 'n' :: 'c' :: 'e' :: tail) "ounce" hdne hdig hsp
        ⟨'o', rfl, by decide, by decide, by decide⟩ (matchUnit_ounce tail hs)]
      show weightToKg ((natVal ds : ℚ), "ounce") = (natVal ds : ℚ) * (0.0283495 : ℚ)
      exact weightToKg_ounce _
    · intro htail
      have hrest : ∀ c ∈ ('o' :: 'z' :: tail), isDig c = false := by
        intro c hc
        rcases List.mem_cons.1 hc with h | hc2
        · subst h
          rfl
        · rcases List.mem_cons.1 hc2 with h | hc3
          · subst h
            rfl
          · exact htail c hc3
      rw [extractWeight_split pre (String.mk (ds ++ (sp ++ ('o' :: 'z' :: tail)))) price url hnd]
      rw [show (String.mk (ds ++ (sp ++ ('o' :: 'z' :: tail)))).data
          = ds ++ (sp ++ ('o' :: 'z' :: tail)) from rfl]
      rw [findNumUnit_structured_none weightUnits ds sp ('o' :: 'z' :: tail) hdig hsp hrest
        ⟨'o', rfl, by decide, by decide, by decide⟩ (matchUnit_oz_none tail)]
    · rw [estimateEnergy_split pre (String.mk (ds ++ (sp ++ ('w' :: tail)))) price url hnd]
      have hdata : (toLowerStr (String.mk (ds ++ (sp ++ ('w' :: tail))))).data
          = ds ++ (sp ++ ('w' :: tail.map lowerChar)) := by
        show (ds ++ (sp ++ ('w' :: tail))).map lowerChar
            = ds ++ (sp ++ ('w' :: tail.map lowerChar))
        simp only [List.map_append, List.map_cons]
        rw [map_lowerChar_digits hdig, map_lowerChar_spaces hsp]
        rfl
      rw [hdata]
      rw [findNumUnit_structured_some energyUnits ds sp ('w' :: tail.map lowerChar) "w" hdne
        hdig hsp ⟨'w', rfl, by decide, by decide, by decide⟩ (matchUnit_w (tail.map lowerChar))]
      show energyToW ((natVal ds : ℚ), "w") = (natVal ds : ℚ)
      exact energyToW_w _
    · rw [estimateEnergy_split pre
        (String.mk (ds ++ (sp ++ ('w' :: 'a' :: 't' :: 't' :: tail)))) price url hnd]
      have hdata : (toLowerStr (String.mk (ds ++ (sp ++ ('w' :: 'a' :: 't' :: 't' :: tail))))).data
          = ds ++ (sp ++ ('w' :: 'a' :: 't' :: 't' :: tail.map lowerChar)) := by
        show (ds ++ (sp ++ ('w' :: 'a' :: 't' :: 't' :: tail))).map lowerChar
            = ds ++ (sp ++ ('w' :: 'a' :: 't' :: 't' :: tail.map lowerChar))
        simp only [List.map_append, List.map_cons]
        rw [map_lowerChar_digits hdig, map_lowerChar_spaces hsp]
        rfl
      rw [hdata]
      rw [findNumUnit_structured_some energyUnits ds sp
        ('w' :: 'a' :: 't' :: 't' :: tail.map lowerChar) "w" hdne hdig hsp
        ⟨'w', rfl, by decide, by decide, by decide⟩
        (matchUnit_w ('a' :: 't' :: 't' :: tail.map lowerChar))]
      show energyToW ((natVal ds : ℚ), "w") = (natVal ds : ℚ)
      exact energyToW_w _
    · rw [estimateEnergy_split pre
        (String.mk (ds ++ (sp ++ ('w' :: 'a' :: 't' :: 't' :: 's' :: tail)))) price url hnd]
      have hdata :
          (toLowerStr (String.mk (ds ++ (sp ++ ('w' :: 'a' :: 't' :: 't' :: 's' :: tail))))).data
          = ds ++ (sp ++ ('w' :: 'a' :: 't' :: 't' :: 's' :: tail.map lowerChar)) := by
        show (ds ++ (sp ++ ('w' :: 'a' :: 't' :: 't' :: 's' :: tail))).map lowerChar
            = ds ++ (sp ++ ('w' :: 'a' :: 't' :: 't' :: 's' :: tail.map lowerChar))
        simp only [List.map_append, List.map_cons]
        rw [map_lowerChar_digits hdig, map_lowerChar_spaces hsp]
        rfl
      rw [hdata]
      rw [findNumUnit_structured_some energyUnits ds sp
        ('w' :: 'a' :: 't' :: 't' :: 's' :: tail.map lowerChar) "w" hdne hdig hsp
        ⟨'w', rfl, by decide, by decide, by decide⟩
        (matchUnit_w ('a' :: 't' :: 't' :: 's' :: tail.map lowerChar))]
      show energyToW ((natVal ds : ℚ), "w") = (natVal ds : ℚ)
      exact energyToW_w _
    · rw [estimateEnergy_split pre (String.mk (ds ++ (sp ++ ('k' :: 'w' :: tail)))) price url hnd]
      have hdata : (toLowerStr (String.mk (ds ++ (sp ++ ('k' :: 'w' :: tail))))).data
          = ds ++ (sp ++ ('k' :: 'w' :: tail.map lowerChar)) := by
        show (ds ++ (sp ++ ('k' :: 'w' :: tail))).map lowerChar
            = ds ++ (sp ++ ('k' :: 'w' :: tail.map lowerChar))
        simp only [List.map_append, List.map_cons]
        rw [map_lowerChar_digits hdig, map_lowerChar_spaces hsp]
        rfl
      rw [hdata]
      rw [findNumUnit_structured_some energyUnits ds sp ('k' :: 'w' :: tail.map lowerChar) "kw"
        hdne hdig hsp ⟨'k', rfl, by decide, by decide, by decide⟩
        (matchUnit_kw (tail.map lowerChar))]
      show energyToW ((natVal ds : ℚ), "kw") = (natVal ds : ℚ) * 1000
      exact energyToW_kw _
    · rw [estimateEnergy_split pre
        (String.mk
          (ds ++ (sp ++ ('k' :: 'i' :: 'l' :: 'o' :: 'w' :: 'a' :: 't' :: 't' :: 's' :: tail))))
        price url hnd]
      have hdata :
          (toLowerStr
            (String.mk
              (ds ++
                (sp ++
                  ('k' :: 'i' :: 'l' :: 'o' :: 'w' :: 'a' :: 't' :: 't' :: 's' :: tail))))).data
          = ds ++
              (sp ++
                ('k' :: 'i' :: 'l' :: 'o' :: 'w' :: 'a' :: 't' :: 't' :: 's' ::
                  tail.map lowerChar)) := by
        show (ds ++
            (sp ++ ('k' :: 'i' :: 'l' :: 'o' :: 'w' :: 'a' :: 't' :: 't' :: 's' :: tail))).map
              lowerChar
            = ds ++
                (sp ++
                  ('k' :: 'i' :: 'l' :: 'o' :: 'w' :: 'a' :: 't' :: 't' :: 's' ::
                    tail.map lowerChar))
        simp only [List.map_append, List.map_cons]
        rw [map_lowerChar_digits hdig, map_lowerChar_spaces hsp]
        rfl
      rw [hdata]
      rw [findNumUnit_structured_some energyUnits ds sp
        ('k' :: 'i' :: 'l' :: 'o' :: 'w' :: 'a' :: 't' :: 't' :: 's' :: tail.map lowerChar)
        "kilowatts" hdne hdig hsp ⟨'k', rfl, by decide, by decide, by decide⟩
        (matchUnit_kilowatts (tail.map lowerChar))]
      show energyToW ((natVal ds : ℚ), "kilowatts") = (natVal ds : ℚ)
      exact energyToW_kilowatts _
  · intro pre price url ds fs sp tail hnd hds hfs hsp
    obtain ⟨hdne, hdig⟩ := hds
    obtain ⟨hfne, hfdig⟩ := hfs
    constructor
    · rw [extractWeight_split pre
        (String.mk (ds ++ ('.' :: (fs ++ (sp ++ ('k' :: 'g' :: tail)))))) price url hnd]
      rw [show (String.mk (ds ++ ('.' :: (fs ++ (sp ++ ('k' :: 'g' :: tail)))))).data
          = ds ++ ('.' :: (fs ++ (sp ++ ('k' :: 'g' :: tail)))) from rfl]
      rw [findNumUnit_structured_frac weightUnits ds fs sp ('k' :: 'g' :: tail) "kg" hdne hdig
        hfne hfdig hsp ⟨'k', rfl, by decide, by decide, by decide⟩ (matchUnit_kg tail)]
      show weightToKg (decVal ds fs, "kg") = decVal ds fs
      exact weightToKg_kg _
    · rw [estimateEnergy_split pre
        (String.mk (ds ++ ('.' :: (fs ++ (sp ++ ('k' :: 'w' :: tail)))))) price url hnd]
      have hdata :
          (toLowerStr (String.mk (ds ++ ('.' :: (fs ++ (sp ++ ('k' :: 'w' :: tail))))))).data
          = ds ++ ('.' :: (fs ++ (sp ++ ('k' :: 'w' :: tail.map lowerChar)))) := by
        show (ds ++ ('.' :: (fs ++ (sp ++ ('k' :: 'w' :: tail))))).map lowerChar
            = ds ++ ('.' :: (fs ++ (sp ++ ('k' :: 'w' :: tail.map lowerChar))))
        simp only [List.map_append, List.map_cons]
        rw [map_lowerChar_digits hdig, map_lowerChar_digits hfdig, map_lowerChar_spaces hsp]
        rfl
      rw [hdata]
      rw [findNumUnit_structured_frac energyUnits ds fs sp ('k' :: 'w' :: tail.map lowerChar)
        "kw" hdne hdig hfne hfdig hsp ⟨'k', rfl, by decide, by decide, by decide⟩
        (matchUnit_kw (tail.map lowerChar))]
      show energyToW (decVal ds fs, "kw") = decVal ds fs * 1000
      exact energyToW_kw _
  · intro raw h1 h2
    have hfree : ∀ c ∈ (raw.title ++ " " ++ raw.description).data, isDig c = false := by
      intro c hc
      rw [String.data_append, String.data_append] at hc
      rcases List.mem_append.1 hc with hA | hB
      · rcases List.mem_append.1 hA with hT | hS
        · exact h1 c hT
        · rw [show (" " : String).data = [' '] from rfl] at hS
          rcases List.mem_singleton.1 hS with rfl
          rfl
      · exact h2 c hB
    have hfree2 : ∀ c ∈ (toLowerStr (raw.title ++ " " ++ raw.description)).data,
        isDig c = false := by
      intro c hc
      have hc2 : c ∈ (raw.title ++ " " ++ raw.description).data.map lowerChar := hc
      rcases List.mem_map.1 hc2 with ⟨d, hd, rfl⟩
      rw [isDig_lowerChar]
      exact hfree d hd
    refine ⟨?_, ?_, ?_⟩
    · unfold extractWeight
      dsimp only
      rw [findNumUnit_none_of_noDig weightUnits _ hfree]
    · intro hinc
      unfold estimateEnergyConsumption
      dsimp only
      rw [findNumUnit_none_of_noDig energyUnits _ hfree2, hinc]
      rfl
    · intro hinc
      unfold estimateEnergyConsumption
      dsimp only
      rw [findNumUnit_none_of_noDig energyUnits _ hfree2, hinc]
      rfl

/-- C9 amended witness: the title "product", the number 45 (1.5 for the
decimal cases), a single space, empty trailing text, and the digit-free
product "eco item" with and without an Energy Star mention. -/
theorem ProductAnalyzer_extraction_units_amended_witness :
    noDigits "product"
  ∧ digitsRun ['4', '5']
  ∧ digitsRun ['1']
  ∧ digitsRun ['5']
  ∧ spacesRun [' ']
  ∧ noLeadS []
  ∧ extractWeight ⟨"product", "45 kg", 1, "u"⟩ = 45
  ∧ extractWeight ⟨"product", "45 g", 1, "u"⟩ = 45 / 1000
  ∧ extractWeight ⟨"product", "45 lbs", 1, "u"⟩ = 45 * (0.45359237 : ℚ)
  ∧ extractWeight ⟨"product", "45 lb", 1, "u"⟩ = 45 * (0.45359237 : ℚ)
  ∧ extractWeight ⟨"product", "45 ounces", 1, "u"⟩ = 45 * (0.0283495 : ℚ)
  ∧ extractWeight ⟨"product", "45 ounce", 1, "u"⟩ = 45 * (0.0283495 : ℚ)
  ∧ extractWeight ⟨"product", "45 oz", 1, "u"⟩ = 0
  ∧ estimateEnergyConsumption ⟨"product", "45 w", 1, "u"⟩ = 45
  ∧ estimateEnergyConsumption ⟨"product", "45 watt", 1, "u"⟩ = 45
  ∧ estimateEnergyConsumption ⟨"product", "45 watts", 1, "u"⟩ = 45
  ∧ estimateEnergyConsumption ⟨"product", "45 kw", 1, "u"⟩ = 45 * 1000
  ∧ estimateEnergyConsumption ⟨"product", "45 kilowatts", 1, "u"⟩ = 45
  ∧ extractWeight ⟨"product", "1.5 kg", 1, "u"⟩ = 1.5
  ∧ estimateEnergyConsumption ⟨"product", "1.5 kw", 1, "u"⟩ = 1.5 * 1000
  ∧ noDigits "eco item"
  ∧ extractWeight ⟨"eco item", "plain", 1, "u"⟩ = 0
  ∧ jsIncludes (toLowerStr ("eco item" ++ " " ++ "energy star")) "energy star" = true
  ∧ estimateEnergyConsumption ⟨"eco item", "energy star", 1, "u"⟩ = 45
  ∧ jsIncludes (toLowerStr ("eco item" ++ " " ++ "plain")) "energy star" = false
  ∧ estimateEnergyConsumption ⟨"eco item", "plain", 1, "u"⟩ = 0 := by
  have hnd : noDigits "product" := by
    unfold noDigits
    decide
  have hnd2 : noDigits "eco item" := by
    unfold noDigits
    decide
  have hnilS : noLeadS ([] : List Char) := by
    intro c h
    exact Option.noConfusion h
  have hnild : ∀ c ∈ ([] : List Char), isDig c = false := by
    intro c hc
    cases hc
  obtain ⟨e1, e2, e3, e4, e5, e6, e7, e8, e9, e10, e11, e12⟩ :=
    ProductAnalyzer_extraction_units_amended.1 "product" 1 "u" ['4', '5'] [' '] [] hnd
      (by unfold digitsRun; decide) (by unfold spacesRun; decide)
  obtain ⟨f1, f2⟩ :=
    ProductAnalyzer_extraction_units_amended.2.1 "product" 1 "u" ['1'] ['5'] [' '] [] hnd
      (by unfold digitsRun; decide) (by unfold digitsRun; decide)
      (by unfold spacesRun; decide)
  obtain ⟨g1, g2, g3⟩ :=
    ProductAnalyzer_extraction_units_amended.2.2 ⟨"eco item", "plain", 1, "u"⟩ hnd2
      (by unfold noDigits; decide)
  obtain ⟨k1, k2, k3⟩ :=
    ProductAnalyzer_extraction_units_amended.2.2 ⟨"eco item", "energy star", 1, "u"⟩ hnd2
      (by unfold noDigits; decide)
  refine ⟨hnd, by unfold digitsRun; decide, by unfold digitsRun; decide,
    by unfold digitsRun; decide, by unfold spacesRun; decide, hnilS, ?_, ?_, ?_, ?_, ?_, ?_, ?_,
    ?_, ?_, ?_, ?_, ?_, ?_, ?_, hnd2, ?_, ?_, ?_, ?_, ?_⟩
  · have e : extractWeight ⟨"product", "45 kg", 1, "u"⟩ = ((natVal ['4', '5'] : ℕ) : ℚ) := e1
    rw [e, show natVal ['4', '5'] = 45 from rfl]
    norm_num
  · have e : extractWeight ⟨"product", "45 g", 1, "u"⟩
        = ((natVal ['4', '5'] : ℕ) : ℚ) / 1000 := e2
    rw [e, show natVal ['4', '5'] = 45 from rfl]
    norm_num
  · have e : extractWeight ⟨"product", "45 lbs", 1, "u"⟩
        = ((natVal ['4', '5'] : ℕ) : ℚ) * (0.45359237 : ℚ) := e3
    rw [e, show natVal ['4', '5'] = 45 from rfl]
    norm_num
  · have e : extractWeight ⟨"product", "45 lb", 1, "u"⟩
        = ((natVal ['4', '5'] : ℕ) : ℚ) * (0.45359237 : ℚ) := e4 hnilS
    rw [e, show natVal ['4', '5'] = 45 from rfl]
    norm_num
  · have e : extractWeight ⟨"product", "45 ounces", 1, "u"⟩
        = ((natVal ['4', '5'] : ℕ) : ℚ) * (0.0283495 : ℚ) := e5
    rw [e, show natVal ['4', '5'] = 45 from rfl]
    norm_num
  · have e : extractWeight ⟨"product", "45 ounce", 1, "u"⟩
        = ((natVal ['4', '5'] : ℕ) : ℚ) * (0.0283495 : ℚ) := e6 hnilS
    rw [e, show natVal ['4', '5'] = 45 from rfl]
    norm_num
  · exact e7 hnild
  · have e : estimateEnergyConsumption ⟨"product", "45 w", 1, "u"⟩
        = ((natVal ['4', '5'] : ℕ) : ℚ) := e8
    rw [e, show natVal ['4', '5'] = 45 from rfl]
    norm_num
  · have e : estimateEnergyConsumption ⟨"product", "45 watt", 1, "u"⟩
        = ((natVal ['4', '5'] : ℕ) : ℚ) := e9
    rw [e, show natVal ['4', '5'] = 45 from rfl]
    norm_num
  · have e : estimateEnergyConsumption ⟨"product", "45 watts", 1, "u"⟩
        = ((natVal ['4', '5'] : ℕ) : ℚ) := e10
    rw [e, show natVal ['4', '5'] = 45 from rfl]
    norm_num
  · have e : estimateEnergyConsumption ⟨"product", "45 kw", 1, "u"⟩
        = ((natVal ['4', '5'] : ℕ) : ℚ) * 1000 := e11
    rw [e, show natVal ['4', '5'] = 45 from rfl]
    norm_num
  · have e : estimateEnergyConsumption ⟨"product", "45 kilowatts", 1, "u"⟩
        = ((natVal ['4', '5'] : ℕ) : ℚ) := e12
    rw [e, show natVal ['4', '5'] = 45 from rfl]
    norm_num
  · have e : extractWeight ⟨"product", "1.5 kg", 1, "u"⟩ = decVal ['1'] ['5'] := f1
    rw [e]
    unfold decVal
    rw [show natVal ['1'] = 1 from rfl, show natVal ['5'] = 5 from rfl]
    norm_num
  · have e : estimateEnergyConsumption ⟨"product", "1.5 kw", 1, "u"⟩
        = decVal ['1'] ['5'] * 1000 := f2
    rw [e]
    unfold decVal
    rw [show natVal ['1'] = 1 from rfl, show natVal ['5'] = 5 from rfl]
    norm_num
  · exact g1
  · rfl
  · exact k2 rfl
  · rfl
  · exact g3 rfl

/-! ### C8: heuristic fallback in analyzeProduct -/

theorem getCached_none_of_mapGet_none (now : ℤ) (st : CacheServiceState)
    (features : ProductFeatures)
    (h : mapGet st.cache (generateCacheKey features) = none) :
    getCachedPrediction now st features = none := by
  unfold getCachedPrediction
  rw [h]

theorem getCachedAnalysis_none (now : ℤ) (cs : CacheServiceState)
    (raw : RawProductData)
    (h : mapGet cs.cache (generateCacheKey (extractFeatures raw)) = none) :
    getCachedAnalysis now cs raw = none := by
  unfold getCachedAnalysis
  rw [getCached_none_of_mapGet_none now cs _ h]

/-- C8 counterexample: an inference failure whose message is exactly
"Analysis failed" is rethrown by analyzeProduct instead of being replaced by
the heuristic score - the caller gets an explicit error, not an analysis. -/
theorem ProductAnalyzer_heuristic_fallback_cex :
    (analyzeProduct inferAF fit0 0 initSys rawCounter).1
      = Except.error "Analysis failed"
  ∧ ∀ a, (analyzeProduct inferAF fit0 0 initSys rawCounter).1
      ≠ Except.ok (AnalyzeResult.analysis a) := by
  have h : (analyzeProduct inferAF fit0 0 initSys rawCounter).1
      = Except.error "Analysis failed" := by
    unfold analyzeProduct
    rw [getCachedAnalysis_none 0 initSys.cs rawCounter rfl]
    dsimp only
    rw [predict_allFail_spec inferAF (extractFeatures rawCounter) 0 initSys.cs
      "Analysis failed" "Analysis failed" "Analysis failed" rfl rfl rfl rfl]
    dsimp only
    rw [if_pos rfl]
  refine ⟨h, ?_⟩
  intro a
  rw [h]
  intro hc
  cases hc

/-- C8 as amended: whenever predict rejects with a hard inference failure
whose message is not exactly "Analysis failed" (and the cache has no entry
for the fingerprint), analyzeProduct still returns an analysis whose
overallScore is the heuristic fallback score and whose confidence is the
reduced value 0.6 instead of the default 1.0; a failure with message
"Analysis failed" is instead rethrown to the caller as an explicit terminal
error (see the counterexample), so the caller always gets either a result
or an explicit error. -/
theorem ProductAnalyzer_heuristic_fallback_amended :
    ∀ (infer : ℕ → Except String ℚ) (fit : Except String (ℚ × ℚ)) (now : ℤ)
      (st : SysState) (raw : RawProductData),
      mapGet st.cs.cache (generateCacheKey (extractFeatures raw)) = none →
      (∀ i, ∃ e, infer i = Except.error e) →
      (∀ e, infer 3 = Except.error e → e ≠ "Analysis failed") →
      ∃ a, (analyzeProduct infer fit now st raw).1
            = Except.ok (AnalyzeResult.analysis a)
        ∧ a.overallScore = calculateHeuristicScore (extractFeatures raw)
        ∧ a.confidence = (0.6 : ℚ) := by
  intro infer fit now st raw hnone hfail hnotAF
  obtain ⟨e1, h1⟩ := hfail 1
  obtain ⟨e2, h2⟩ := hfail 2
  obtain ⟨e3, h3⟩ := hfail 3
  have hne3 : e3 ≠ "Analysis failed" := hnotAF e3 h3
  have hspec := predict_allFail_spec infer (extractFeatures raw) now st.cs e1 e2 e3
    (getCached_none_of_mapGet_none now st.cs _ hnone) h1 h2 h3
  unfold analyzeProduct
  rw [getCachedAnalysis_none now st.cs raw hnone]
  dsimp only
  rw [hspec]
  dsimp only
  rw [if_neg hne3]
  unfold analyzeFinish
  dsimp only
  have hconf : (if isMinimalProductData raw = true then min (0.6 : ℚ) 0.7
      else (0.6 : ℚ)) = 0.6 := by
    split
    · rw [min_eq_left (by norm_num)]
    · rfl
  exact ⟨_, rfl, rfl, hconf⟩

/-- C8 amended witness: a minimal product with an empty cache and an
inference that always fails with the message "boom". -/
theorem ProductAnalyzer_heuristic_fallback_amended_witness :
    mapGet initSys.cs.cache (generateCacheKey (extractFeatures rawCounter)) = none
  ∧ ∃ a, (analyzeProduct inferFail fit0 0 initSys rawCounter).1
        = Except.ok (AnalyzeResult.analysis a)
      ∧ a.overallScore = calculateHeuristicScore (extractFeatures rawCounter)
      ∧ a.confidence = (0.6 : ℚ) := by
  have hnone : mapGet initSys.cs.cache
      (generateCacheKey (extractFeatures rawCounter)) = none := rfl
  refine ⟨hnone, ProductAnalyzer_heuristic_fallback_amended inferFail fit0 0
    initSys rawCounter hnone (fun _ => ⟨"boom", rfl⟩) ?_⟩
  intro e he
  have hb : "boom" = e := by
    injection he
  rw [← hb]
  decide

end EcoChoice
